import Mathlib

/-!
Verification development for the game-log reconstruction tool of this
repository (`server/logs_to_games.py`).  The Python code is shallowly
embedded: Python values are modelled by the inductive type `PyVal`,
Python exceptions by `PyErr`, and fallible operations return
`Except PyErr`.  Modules of the repository that are not part of the
analysed sources (the `enums` module and the reference simulation) are
modelled from the specification where needed; each such definition
carries a doc comment starting with `Modelled from the spec:`.
-/

/-- Python exceptions raised by the analysed code paths. -/
inductive PyErr where
  | keyError
  | indexError
  | typeError
  | valueError
deriving DecidableEq

/-- Python values reachable in the analysed code: ints, strings, `None`,
lists, tuples and dicts (insertion-ordered association lists, matching
Python dicts).  Floats and booleans do not occur in the code paths the
claims are about. -/
inductive PyVal where
  | int (n : Int)
  | str (s : String)
  | none
  | list (xs : List PyVal)
  | tuple (xs : List PyVal)
  | dict (xs : List (PyVal × PyVal))

mutual

/-- Structural (Lean) equality test on `PyVal`, used only to obtain a
`DecidableEq` instance. -/
def pyBeq : PyVal → PyVal → Bool
  | .int a, .int b => a == b
  | .str a, .str b => a == b
  | .none, .none => true
  | .list a, .list b => pyBeqList a b
  | .tuple a, .tuple b => pyBeqList a b
  | .dict a, .dict b => pyBeqPairs a b
  | _, _ => false

def pyBeqList : List PyVal → List PyVal → Bool
  | [], [] => true
  | a :: as_, b :: bs => pyBeq a b && pyBeqList as_ bs
  | _, _ => false

def pyBeqPairs : List (PyVal × PyVal) → List (PyVal × PyVal) → Bool
  | [], [] => true
  | (k, v) :: as_, (k2, v2) :: bs => pyBeq k k2 && pyBeq v v2 && pyBeqPairs as_ bs
  | _, _ => false

end

theorem pyBeq_iff : ∀ a b : PyVal, pyBeq a b = true ↔ a = b := by
  intro a
  induction a using PyVal.rec
    (motive_2 := fun xs => ∀ ys, pyBeqList xs ys = true ↔ xs = ys)
    (motive_3 := fun xs => ∀ ys, pyBeqPairs xs ys = true ↔ xs = ys)
    (motive_4 := fun p => ∀ q : PyVal × PyVal,
      (pyBeq p.1 q.1 && pyBeq p.2 q.2) = true ↔ p = q)
  · intro b; cases b <;> simp [pyBeq]
  · intro b; cases b <;> simp [pyBeq]
  · intro b; cases b <;> simp [pyBeq]
  · next xs ih => intro b; cases b <;> simp [pyBeq]; exact ih _
  · next xs ih => intro b; cases b <;> simp [pyBeq]; exact ih _
  · next xs ih => intro b; cases b <;> simp [pyBeq]; exact ih _
  · rename_i ys
    cases ys <;> simp [pyBeqList]
  · rename_i hd tl ihhd ihtl ys
    cases ys <;> simp [pyBeqList, ihhd, ihtl]
  · rename_i ys
    cases ys <;> simp [pyBeqPairs]
  · rename_i hd tl ihhd ihtl ys
    rcases hd with ⟨k, v⟩
    rcases ys with _ | ⟨⟨k2, v2⟩, bs⟩ <;> simp [pyBeqPairs, ihtl]
    have h := ihhd (k2, v2)
    simp at h
    exact fun _ => h
  · rename_i fst snd ihf ihs q
    rcases q with ⟨qf, qs⟩
    simp [ihf, ihs, Prod.ext_iff]

instance : DecidableEq PyVal := fun a b => decidable_of_iff _ (pyBeq_iff a b)

deriving instance DecidableEq for Except

mutual

/-- Python `==` on the modelled values: ints, strings and `None` compare by
value, lists with lists and tuples with tuples elementwise, a list never
equals a tuple, dicts entrywise.  Python compares dicts without regard to
key order; the analysed code paths only ever compare values decoded from
JSON or built by the handlers (command codes, board coordinates, history
messages - scalars, lists and tuples), never two dicts whose key order
could differ, so entrywise dict comparison is exact on every reachable
comparison and keeps the definition structurally recursive. -/
def pyEq : PyVal → PyVal → Bool
  | .int a, .int b => a == b
  | .str a, .str b => a == b
  | .none, .none => true
  | .list a, .list b => pyEqList a b
  | .tuple a, .tuple b => pyEqList a b
  | .dict a, .dict b => pyEqPairs a b
  | _, _ => false

def pyEqList : List PyVal → List PyVal → Bool
  | [], [] => true
  | a :: as_, b :: bs => pyEq a b && pyEqList as_ bs
  | _, _ => false

def pyEqPairs : List (PyVal × PyVal) → List (PyVal × PyVal) → Bool
  | [], [] => true
  | (k, v) :: as_, (k2, v2) :: bs => pyEq k k2 && pyEq v v2 && pyEqPairs as_ bs
  | _, _ => false

end

/-- The quote character used by Python `repr` on strings. -/
def pyQuote : String := String.singleton (Char.ofNat 39)

/-- Comma-joins already-rendered items, as inside a Python container repr. -/
def pyReprJoin : List String → String
  | [] => ""
  | [s] => s
  | s :: rest => s ++ ", " ++ pyReprJoin rest

mutual

/-- Python `repr` of a modelled value.  Strings are rendered between
single quotes (escaping inside string contents is not modelled; no
analysed claim depends on it). -/
def pyRepr : PyVal → String
  | .int n => toString n
  | .str s => pyQuote ++ s ++ pyQuote
  | .none => "None"
  | .list xs => "[" ++ pyReprJoin (pyReprList xs) ++ "]"
  | .tuple xs =>
    "(" ++ pyReprJoin (pyReprList xs) ++ (if xs.length == 1 then ",)" else ")")
  | .dict xs => "\x7b" ++ pyReprJoin (pyReprPairs xs) ++ "\x7d"
termination_by structural v => v

def pyReprList : List PyVal → List String
  | [] => []
  | x :: xs => pyRepr x :: pyReprList xs
termination_by structural xs => xs

def pyReprPairs : List (PyVal × PyVal) → List String
  | [] => []
  | (k, v) :: xs => (pyRepr k ++ ": " ++ pyRepr v) :: pyReprPairs xs
termination_by structural xs => xs

end

/-- Python `str`: the string itself for a string, `repr` otherwise (the
analysed code only ever calls `str` on containers and scalars). -/
def pyStr : PyVal → String
  | .str s => s
  | v => pyRepr v

/-- Python truthiness: zero, empty string, `None` and empty containers are
falsy, everything else modelled is truthy. -/
def pyTruthy : PyVal → Bool
  | .int n => n != 0
  | .str s => s ≠ ""
  | .none => false
  | .list xs => xs ≠ []
  | .tuple xs => xs ≠ []
  | .dict xs => xs ≠ []

mutual

/-- Python hashability of the modelled values: ints, strings and `None`
are hashable, a tuple is hashable when its elements are, lists and dicts
are unhashable. -/
def pyHashable : PyVal → Bool
  | .int _ => true
  | .str _ => true
  | .none => true
  | .tuple xs => pyHashableList xs
  | .list _ => false
  | .dict _ => false

def pyHashableList : List PyVal → Bool
  | [] => true
  | x :: xs => pyHashable x && pyHashableList xs

end

/-- Resolve a Python sequence index (negative indexes count from the
end); `none` when the index is out of range. -/
def resolveIdx (i : Int) (n : Nat) : Option Nat :=
  let j : Int := if i < 0 then i + n else i
  if 0 ≤ j ∧ j < (n : Int) then some j.toNat else Option.none

/-- Look a key up in a modelled dict by Python `==`, first match wins. -/
def pyDictFind (xs : List (PyVal × PyVal)) (k : PyVal) : Option PyVal :=
  match xs with
  | [] => Option.none
  | (k2, v) :: rest => if pyEq k k2 then some v else pyDictFind rest k

/-- Python subscription `v[k]` on the modelled values. -/
def pySubscript (v k : PyVal) : Except PyErr PyVal :=
  match v with
  | .list xs =>
    match k with
    | .int i =>
      match resolveIdx i xs.length with
      | some j => .ok (xs.getD j .none)
      | Option.none => .error .indexError
    | _ => .error .typeError
  | .tuple xs =>
    match k with
    | .int i =>
      match resolveIdx i xs.length with
      | some j => .ok (xs.getD j .none)
      | Option.none => .error .indexError
    | _ => .error .typeError
  | .str s =>
    match k with
    | .int i =>
      match resolveIdx i s.length with
      | some j => .ok (.str (String.singleton (s.toList.getD j (Char.ofNat 32))))
      | Option.none => .error .indexError
    | _ => .error .typeError
  | .dict xs =>
    if pyHashable k then
      match pyDictFind xs k with
      | some w => .ok w
      | Option.none => .error .keyError
    else .error .typeError
  | _ => .error .typeError

/-- Replace the value of the first `==`-equal key, else append (Python
dict item assignment). -/
def pyDictPut (xs : List (PyVal × PyVal)) (k v : PyVal) : List (PyVal × PyVal) :=
  match xs with
  | [] => [(k, v)]
  | (k2, v2) :: rest =>
    if pyEq k k2 then (k2, v) :: rest else (k2, v2) :: pyDictPut rest k v

/-- Python item assignment `v[k] = x`; returns the updated value. -/
def pyStore (v k x : PyVal) : Except PyErr PyVal :=
  match v with
  | .list xs =>
    match k with
    | .int i =>
      match resolveIdx i xs.length with
      | some j => .ok (.list (xs.set j x))
      | Option.none => .error .indexError
    | _ => .error .typeError
  | .dict xs =>
    if pyHashable k then .ok (.dict (pyDictPut xs k x)) else .error .typeError
  | _ => .error .typeError

/-- Python iteration: elements of a list or tuple, the characters of a
string, the keys of a dict; ints and `None` are not iterable. -/
def pyIter : PyVal → Except PyErr (List PyVal)
  | .list xs => .ok xs
  | .tuple xs => .ok xs
  | .str s => .ok (s.toList.map fun c => .str (String.singleton c))
  | .dict xs => .ok (xs.map Prod.fst)
  | _ => .error .typeError

/-- Python `len`. -/
def pyLen : PyVal → Except PyErr Nat
  | .list xs => .ok xs.length
  | .tuple xs => .ok xs.length
  | .str s => .ok s.length
  | .dict xs => .ok xs.length
  | _ => .error .typeError

/-- Substring containment over character lists. -/
def charsContain (needle haystack : List Char) : Bool :=
  match haystack with
  | [] => needle == []
  | _ :: t => needle.isPrefixOf haystack || charsContain needle t

/-- Python membership `k in v`: element search for lists and tuples, key
membership for dicts (unhashable keys raise), substring containment for
strings. -/
def pyContains (v k : PyVal) : Except PyErr Bool :=
  match v with
  | .list xs => .ok (xs.any fun x => pyEq k x)
  | .tuple xs => .ok (xs.any fun x => pyEq k x)
  | .dict xs =>
    if pyHashable k then .ok ((pyDictFind xs k).isSome) else .error .typeError
  | .str s =>
    match k with
    | .str t => .ok (charsContain t.toList s.toList)
    | _ => .error .typeError
  | _ => .error .typeError

/-- Python slice `v[n:]` for the modelled sequences. -/
def pySliceFrom (v : PyVal) (n : Nat) : Except PyErr PyVal :=
  match v with
  | .list xs => .ok (.list (xs.drop n))
  | .tuple xs => .ok (.tuple (xs.drop n))
  | .str s => .ok (.str (String.mk (s.toList.drop n)))
  | _ => .error .typeError

/-- Python slice `v[:n]` for the modelled sequences. -/
def pySliceTake (v : PyVal) (n : Nat) : Except PyErr PyVal :=
  match v with
  | .list xs => .ok (.list (xs.take n))
  | .tuple xs => .ok (.tuple (xs.take n))
  | .str s => .ok (.str (String.mk (s.toList.take n)))
  | _ => .error .typeError

/-- Modelled from the spec: the current member order of the repository's
`enums.CommandsToClient` enum (the `enums` module is not among the
analysed sources).  The order is reconstructed from the exhaustive,
ordered handler-table comments in `LogProcessor.__init__`
(`server/logs_to_games.py`, lines 290-318), which list every member. -/
def commandsToClientMembers : List String :=
  ["FatalError", "SetClientId", "SetClientIdToData", "SetGameState",
   "SetGameBoardCell", "SetGameBoard", "SetScoreSheetCell", "SetScoreSheet",
   "SetGamePlayerJoin", "SetGamePlayerRejoin", "SetGamePlayerLeave",
   "SetGamePlayerJoinMissing", "SetGameWatcherClientId",
   "ReturnWatcherToLobby", "AddGameHistoryMessage", "AddGameHistoryMessages",
   "SetTurn", "SetGameAction", "SetTile", "SetTileGameBoardType",
   "RemoveTile", "AddGlobalChatMessage", "AddGameChatMessage", "DestroyGame"]

/-- Modelled from the spec: the current members of `enums.Errors` (module
not among the analysed sources).  Only the presence of the three
historical names matters to any claim; further members would only extend
this list. -/
def errorsMembers : List String :=
  ["NotUsingLatestVersion", "InvalidUsername", "UsernameAlreadyInUse"]

/-- `Enums.lookups['CommandsToClient']`: the current enum members plus the
two defunct names appended by the source. -/
def lookupsCommandsToClient : List String :=
  commandsToClientMembers ++ ["SetGamePlayerUsername", "SetGamePlayerClientId"]

/-- `Enums.lookups['Errors']`. -/
def lookupsErrors : List String := errorsMembers

/-- `Enums.lookups[name]` (the source only ever uses the two family
names appearing in `Enums._lookups_changes`). -/
def enumsLookup (fam : String) : List String :=
  if fam = "CommandsToClient" then lookupsCommandsToClient
  else if fam = "Errors" then lookupsErrors
  else []

/-- `Enums._lookups_changes`: historical snapshots of enum member orders,
keyed by the timestamp at which the change took effect (source lines
24-58). -/
def lookupsChanges : List (Nat × List (String × List String)) :=
  [(1417176502,
    [("CommandsToClient",
      ["FatalError", "SetClientId", "SetClientIdToData", "SetGameState",
       "SetGameBoardCell", "SetGameBoard", "SetScoreSheetCell",
       "SetScoreSheet", "SetGamePlayerUsername", "SetGamePlayerClientId",
       "SetGameWatcherClientId", "ReturnWatcherToLobby",
       "AddGameHistoryMessage", "AddGameHistoryMessages", "SetTurn",
       "SetGameAction", "SetTile", "SetTileGameBoardType", "RemoveTile",
       "AddGlobalChatMessage", "AddGameChatMessage", "DestroyGame"])]),
   (1409233190,
    [("Errors",
      ["NotUsingLatestVersion", "InvalidUsername", "UsernameAlreadyInUse"])])]

/-- One family of `Enums._translations`: maps each old positional index to
the index of the same entry name in the current lookup list (the Python
`entry_to_new_index` comprehension keeps the last index of a duplicated
name; the current lists have no duplicate names, so the first index is the
same). -/
def buildTranslationFamily (fam : String) (entries : List String) : List (Nat × Nat) :=
  entries.enum.map fun p => (p.1, (enumsLookup fam).indexOf p.2)

/-- `Enums._translations`, as computed once at import from
`Enums._lookups_changes`. -/
def enumsTranslationsTable : List (Nat × List (String × List (Nat × Nat))) :=
  lookupsChanges.map fun p => (p.1, p.2.map fun q => (q.1, buildTranslationFamily q.1 q.2))

/-- First value for a (structurally compared) key in an association list. -/
def assocFind {α : Type} (xs : List (String × α)) (k : String) : Option α :=
  match xs with
  | [] => Option.none
  | (k2, v) :: rest => if k = k2 then some v else assocFind rest k

/-- Python dict item assignment for string-keyed association lists:
replace in place or append. -/
def assocPut {α : Type} (xs : List (String × α)) (k : String) (v : α) : List (String × α) :=
  match xs with
  | [] => [(k, v)]
  | (k2, v2) :: rest =>
    if k = k2 then (k2, v) :: rest else (k2, v2) :: assocPut rest k v

/-- Python `dict.update`: put every entry of the second dict in order. -/
def assocUpdate {α : Type} (d upd : List (String × α)) : List (String × α) :=
  upd.foldl (fun acc p => assocPut acc p.1 p.2) d

/-- Stable insertion for descending sort by `Nat` key (`sorted(...,
reverse=True)` on dict items). -/
def insertKeyDesc {α : Type} (p : Nat × α) : List (Nat × α) → List (Nat × α)
  | [] => [p]
  | q :: rest => if q.1 < p.1 then p :: q :: rest else q :: insertKeyDesc p rest

/-- Stable descending sort by `Nat` key. -/
def sortKeyDesc {α : Type} (xs : List (Nat × α)) : List (Nat × α) :=
  xs.foldr insertKeyDesc []

/-- `Enums.get_translations`: walk the recorded changes newest first and
accumulate (`dict.update`) every snapshot whose key timestamp is at or
after the given log timestamp. -/
def getTranslations (timestamp : Nat) : List (String × List (Nat × Nat)) :=
  (sortKeyDesc enumsTranslationsTable).foldl
    (fun acc p => if timestamp ≤ p.1 then assocUpdate acc p.2 else acc) []

/-- The composed `CommandsToClient` translation of the single recorded
change to that family (timestamp 1417176502). -/
def ctcTranslation : List (Nat × Nat) :=
  buildTranslationFamily "CommandsToClient"
    ["FatalError", "SetClientId", "SetClientIdToData", "SetGameState",
     "SetGameBoardCell", "SetGameBoard", "SetScoreSheetCell",
     "SetScoreSheet", "SetGamePlayerUsername", "SetGamePlayerClientId",
     "SetGameWatcherClientId", "ReturnWatcherToLobby",
     "AddGameHistoryMessage", "AddGameHistoryMessages", "SetTurn",
     "SetGameAction", "SetTile", "SetTileGameBoardType", "RemoveTile",
     "AddGlobalChatMessage", "AddGameChatMessage", "DestroyGame"]

/-- The composed `Errors` translation of the single recorded change to
that family (timestamp 1409233190). -/
def errTranslation : List (Nat × Nat) :=
  buildTranslationFamily "Errors"
    ["NotUsingLatestVersion", "InvalidUsername", "UsernameAlreadyInUse"]

/-- The state of a `CommandsToClientTranslator`. -/
structure CommandsToClientTranslator where
  commandsToClient : Option (List (Nat × Nat))
  errors : Option (List (Nat × Nat))
  fatalError : Nat

/-- `CommandsToClientTranslator.__init__`. -/
def mkTranslator (translations : List (String × List (Nat × Nat))) : CommandsToClientTranslator :=
  { commandsToClient := assocFind translations "CommandsToClient"
    errors := assocFind translations "Errors"
    fatalError := commandsToClientMembers.indexOf "FatalError" }

/-- Python truthiness of a translator field (`None` and the empty dict are
falsy). -/
def transTruthy : Option (List (Nat × Nat)) → Bool
  | Option.none => false
  | some m => m ≠ []

/-- Integer-keyed translation-table lookup. -/
def transFind (m : List (Nat × Nat)) (k : Int) : Option Nat :=
  (m.find? fun p => (p.1 : Int) == k).map Prod.snd

/-- One step of the first `translate` loop:
`command[0] = self._commands_to_client[command[0]]`. -/
def translateCmdHead (m : List (Nat × Nat)) (c : PyVal) : Except PyErr PyVal := do
  let v0 ← pySubscript c (.int 0)
  match v0 with
  | .int n =>
    match transFind m n with
    | some w => pyStore c (.int 0) (.int w)
    | Option.none => .error .keyError
  | v => if pyHashable v then .error .keyError else .error .typeError

/-- One step of the second `translate` loop:
`if command[0] == self._fatal_error: command[1] = self._errors[command[1]]`. -/
def translateCmdErr (e : List (Nat × Nat)) (fatal : Nat) (c : PyVal) : Except PyErr PyVal := do
  let v0 ← pySubscript c (.int 0)
  if pyEq v0 (.int fatal) then do
    let v1 ← pySubscript c (.int 1)
    match v1 with
    | .int n =>
      match transFind e n with
      | some w => pyStore c (.int 1) (.int w)
      | Option.none => .error .keyError
    | v => if pyHashable v then .error .keyError else .error .typeError
  else pure c

/-- A Python `for x in v` loop whose body mutates the element `x` in
place, rebuilding the container.  Iterating a string or a dict yields
immutable elements (characters, keys); both loop bodies used with this
helper always raise on such an element before mutating, so the fallback
answer there is unreachable in the analysed code. -/
def pyMapMut (f : PyVal → Except PyErr PyVal) (v : PyVal) : Except PyErr PyVal :=
  match v with
  | .list xs => do pure (.list (← xs.mapM f))
  | .tuple xs => do pure (.tuple (← xs.mapM f))
  | .str s =>
    match s.toList with
    | [] => .ok v
    | c :: _ => do
      let _ ← f (.str (String.singleton c))
      .error .typeError
  | .dict xs =>
    match xs with
    | [] => .ok v
    | (k, _) :: _ => do
      let _ ← f k
      .error .typeError
  | _ => .error .typeError

/-- `CommandsToClientTranslator.translate` (source lines 92-100): remap
every command code, then remap the payload of fatal-error commands, when
the respective table is truthy. -/
def translatorTranslate (tr : CommandsToClientTranslator) (commands : PyVal) :
    Except PyErr PyVal := do
  let commands1 ←
    match tr.commandsToClient with
    | some m => if m ≠ [] then pyMapMut (translateCmdHead m) commands else pure commands
    | Option.none => pure commands
  match tr.errors with
  | some e =>
    if e ≠ [] then pyMapMut (translateCmdErr e tr.fatalError) commands1
    else pure commands1
  | Option.none => pure commands1

/-- `LogParser._enum_set_game_board_cell`. -/
def setGameBoardCellVal : Nat := commandsToClientMembers.indexOf "SetGameBoardCell"

/-- `LogParser._enum_set_game_player`: the lookup indexes whose entry name
contains the substring `SetGamePlayer`, listed ascending (the source keeps
them in a set and only takes `min` and `max`). -/
def setGamePlayerIdxs : List Nat :=
  (lookupsCommandsToClient.enum.filter fun p =>
    charsContain "SetGamePlayer".toList p.2.toList).map Prod.fst

/-- The index-collection loop of `LogParser._handle_command_to_client`
(source lines 212-218): ascending indexes of `SetGameBoardCell` commands
and of `SetGamePlayer*` commands.  The `==` test against the board value
never raises, but the `elif` tests `command[0] in self._enum_set_game_player`
against a Python set (source line 217), which hashes the operand first: a
command whose head is unhashable (a decoded JSON array or object) raises
`TypeError` there, at the first such command, left to right. -/
def collectCmdIdxs (i : Nat) : List PyVal → Except PyErr (List Nat × List Nat)
  | [] => .ok ([], [])
  | c :: rest => do
    let v0 ← pySubscript c (.int 0)
    if pyEq v0 (.int setGameBoardCellVal) then do
      let (bs, ps) ← collectCmdIdxs (i + 1) rest
      pure (i :: bs, ps)
    else if !pyHashable v0 then .error .typeError
    else if setGamePlayerIdxs.any fun n => pyEq v0 (.int n) then do
      let (bs, ps) ← collectCmdIdxs (i + 1) rest
      pure (bs, i :: ps)
    else do
      let (bs, ps) ← collectCmdIdxs (i + 1) rest
      pure (bs, ps)

/-- The batch-reorder step of `LogParser._handle_command_to_client`
(source lines 210-226): when a `SetGameBoardCell` command comes before the
first `SetGamePlayer*` command, the span from the first to the last
`SetGamePlayer*` command is moved to the front.  A string or dict batch
can never satisfy the guard (its iteration yields characters or JSON
object keys, which are strings and match no command code), so only list
and tuple batches are ever sliced. -/
def reorderCommands (commands : PyVal) : Except PyErr PyVal := do
  let elems ← pyIter commands
  let (bIdxs, pIdxs) ← collectCmdIdxs 0 elems
  if bIdxs ≠ [] ∧ pIdxs ≠ [] ∧ bIdxs.headD 0 < pIdxs.headD 0 then
    let mn := pIdxs.headD 0
    let mx := pIdxs.getLastD 0
    let newElems :=
      (elems.drop mn).take (mx + 1 - mn) ++ elems.take mn ++ elems.drop (mx + 1)
    match commands with
    | .list _ => .ok (.list newElems)
    | .tuple _ => .ok (.tuple newElems)
    | _ => .error .typeError
  else .ok commands

/-- A board coordinate; tile identity in the game. -/
abbrev Tile := Nat × Nat

/-- The 108 board coordinates, row-major.  The source builds them as a set
comprehension `{(x, y) for x in range(12) for y in range(9)}`; a set of
small int tuples iterates deterministically in CPython, modelled here by
this canonical order. -/
def allTiles : List Tile :=
  (List.range 12).flatMap fun x => (List.range 9).map fun y => (x, y)

/-- Modelled from the spec: the wire ids of the `enums.GameHistoryMessages`
members used by the tile-bag inferencer (module not among the analysed
sources).  Only their distinctness matters to any claim. -/
def turnBeganId : Nat := 0

/-- Modelled from the spec: `enums.GameHistoryMessages.DrewPositionTile`. -/
def drewPositionTileId : Nat := 1

/-- Modelled from the spec: `enums.GameHistoryMessages.DrewTile`. -/
def drewTileId : Nat := 2

/-- Modelled from the spec: `enums.GameHistoryMessages.ReplacedDeadTile`. -/
def replacedDeadTileId : Nat := 3

/-- `Game._drew_or_replaced_tile_message_ids`. -/
def drewOrReplacedTileMessageIds : List Nat :=
  [drewPositionTileId, drewTileId, replacedDeadTileId]

/-- One recorded game-history message as consumed by the tile-bag
inferencer: its message id and, for drew/replaced messages, the drawn
tile coordinate (`message[2]`, `message[3]`).  A valid draw history
carries integer board coordinates there, so they are typed as naturals;
the range bound is the explicit validity hypothesis of the theorems. -/
structure HistMsg where
  msgId : Nat
  x : Nat
  y : Nat
deriving DecidableEq

/-- Every drew/replaced message of every history carries an in-range
board coordinate. -/
def validHistories (histories : List (List HistMsg)) : Bool :=
  histories.all fun h => h.all fun m =>
    !(drewOrReplacedTileMessageIds.contains m.msgId) || (m.x < 12 && m.y < 9)

/-- The per-player turn-splitting loop of `Game._get_initial_tile_bag`
(source lines 760-770): tiles drawn or replaced, grouped per turn, the
running group flushed at each turn-began message and once more at the
end. -/
def turnListsAux : List HistMsg → List Tile → List (List Tile)
  | [], cur => [cur]
  | m :: rest, cur =>
    if drewOrReplacedTileMessageIds.contains m.msgId then
      turnListsAux rest (cur ++ [(m.x, m.y)])
    else if m.msgId = turnBeganId then cur :: turnListsAux rest []
    else turnListsAux rest cur

/-- `turn_by_turn_tiles_drawn_or_replaced` for one player's history. -/
def turnLists (h : List HistMsg) : List (List Tile) := turnListsAux h []

/-- Greatest element of a list of naturals (0 for the empty list). -/
def listMax : List Nat → Nat
  | [] => 0
  | n :: rest => max n (listMax rest)

/-- Stable insertion for the descending sort by tile count
(`sorted(..., key=lambda x: -len(x))`, which is stable in Python): an
element goes in front of the first element with at most its length, so
equal lengths keep their original order. -/
def insertLenDesc (x : List Tile) : List (List Tile) → List (List Tile)
  | [] => [x]
  | y :: ys => if y.length ≤ x.length then x :: y :: ys else y :: insertLenDesc x ys

/-- Stable descending sort by length. -/
def sortLenDesc (xs : List (List Tile)) : List (List Tile) :=
  xs.foldr insertLenDesc []

/-- Append each tile not yet in the bag (the source keeps a companion
`included_tiles` set whose membership always equals the bag's, so the
membership test is taken on the bag itself). -/
def appendNewTiles (bag : List Tile) (ts : List Tile) : List Tile :=
  ts.foldl (fun b t => if t ∈ b then b else b ++ [t]) bag

/-- The lock-step walk of `Game._get_initial_tile_bag` (source lines
785-807): for each turn index up to the longest player (as
`itertools.zip_longest`), take each player's tiles for that turn, drop
exhausted and empty entries, order them by descending tile count (stable),
and append all tiles not seen before. -/
def observedTileBag (histories : List (List HistMsg)) : List Tile :=
  let players := histories.map turnLists
  let cols := (List.range (listMax (players.map List.length))).map fun t =>
    players.filterMap fun p => p.get? t
  cols.foldl
    (fun bag col =>
      (sortLenDesc (col.filter fun p => p ≠ [])).foldl appendNewTiles bag)
    []

/-- Modelled from the spec: the state of the Python stdlib global `random`
generator.  The spec relies on two facts only: after `random.seed(s)` the
generator state is a pure function of `s`, and values drawn before seeding
depend on the ambient state.  The state is a natural number;
`randomSeedState` derives a state from the seed string, `randomSample`
picks the state-indexed element and advances the state, and
`randomShuffle` applies a state-determined permutation (a rotation). -/
abbrev RngState := Nat

/-- Modelled from the spec: `random.seed(s)` - the resulting state is a
pure function of the seed string. -/
def randomSeedState (s : String) : RngState :=
  s.toList.foldl (fun a c => a * 131 + c.toNat) 7

/-- Modelled from the spec: `random.sample(population, 1)[0]` on a
nonempty population, with the advanced generator state; `none` (the
`ValueError` of sampling more elements than the population has) when
empty. -/
def randomSample (σ : RngState) (xs : List Tile) : Option (Tile × RngState) :=
  match xs with
  | [] => Option.none
  | _ => some (xs.getD (σ % xs.length) (0, 0), σ + 1)

/-- Modelled from the spec: `random.shuffle` - a permutation of the list
determined by the generator state. -/
def randomShuffle (σ : RngState) (xs : List α) : List α :=
  xs.drop (σ % (xs.length + 1)) ++ xs.take (σ % (xs.length + 1))

/-- `Game.tile_bag_tweaks` (source lines 617-628): the manual correction
table, keyed by (log timestamp, internal game id); each entry is an
insertion position and the tile to insert (`none` stands for Python
`None`: draw the tile at random from the remaining set). -/
def tileBagTweaks : List ((Nat × Nat) × List (Nat × Option Tile)) :=
  [((1414827614, 43), [(34, some (1, 5))]),
   ((1415355783, 106), [(68, some (11, 1))]),
   ((1421578193, 3366), [(80, some (9, 6))]),
   ((1427270069, 3903), [(53, some (0, 8))]),
   ((1430041771, 1330), [(63, some (0, 8))]),
   ((1432033655, 1965), [(91, some (5, 5))]),
   ((1433241253, 1336), [(69, some (7, 5))]),
   ((1433837429, 1110), [(73, some (7, 1))]),
   ((1435226336, 3165), [(88, some (2, 7)), (89, some (11, 3))]),
   ((1435226336, 5690), [(101, some (10, 7))])]

/-- `tweaks.get((log_timestamp, internal_game_id))` over a correction
table. -/
def tweaksGet (tweaks : List ((Nat × Nat) × List (Nat × Option Tile)))
    (ts igid : Nat) : Option (List (Nat × Option Tile)) :=
  (tweaks.find? fun p => p.1 = (ts, igid)).map Prod.snd

/-- The tweak-application loop of `Game._get_initial_tile_bag` (source
lines 815-827): entries whose position is beyond the current bag are
skipped; an unspecified tile is drawn from the remaining set with the
ambient generator state; the tile is inserted and removed from the
remaining set (`set.remove` raises, giving `none`, when the tile is not
remaining). -/
def applyTweaks (entries : List (Nat × Option Tile)) (bag remaining : List Tile)
    (σ : RngState) : Option (List Tile × List Tile × RngState) :=
  match entries with
  | [] => some (bag, remaining, σ)
  | (idx, t?) :: rest =>
    if idx ≤ bag.length then
      match t? with
      | some t =>
        if t ∈ remaining then
          applyTweaks rest (bag.insertIdx idx t) (remaining.erase t) σ
        else Option.none
      | Option.none =>
        match randomSample σ remaining with
        | some (t, σ2) => applyTweaks rest (bag.insertIdx idx t) (remaining.erase t) σ2
        | Option.none => Option.none
    else applyTweaks rest bag remaining σ

/-- The inference arm of `Game._get_initial_tile_bag` (source lines
757-835), over an arbitrary correction table: observed tiles in inferred
order, manual corrections, then the never-observed remainder shuffled
under the seed derived from the game identity, the whole reversed. -/
def inferTileBagWith (ts igid : Nat) (histories : List (List HistMsg))
    (tweaks : List ((Nat × Nat) × List (Nat × Option Tile)))
    (σ : RngState) : Option (List Tile) :=
  let bag0 := observedTileBag histories
  let remaining0 := allTiles.filter fun t => t ∉ bag0
  let afterTweaks :=
    match tweaksGet tweaks ts igid with
    | some entries => applyTweaks entries bag0 remaining0 σ
    | Option.none => some (bag0, remaining0, σ)
  match afterTweaks with
  | Option.none => Option.none
  | some (bag, remaining, _) =>
    some ((bag ++
      randomShuffle (randomSeedState (toString ts ++ "-" ++ toString igid)) remaining).reverse)

/-- `Game._get_initial_tile_bag` over an arbitrary correction table: a
truthy recorded `tile_bag` field is returned verbatim, otherwise the bag
is inferred. -/
def getInitialTileBagWith (ts igid : Nat) (tileBagField : Option (List Tile))
    (histories : List (List HistMsg))
    (tweaks : List ((Nat × Nat) × List (Nat × Option Tile)))
    (σ : RngState) : Option (List Tile) :=
  match tileBagField with
  | some l => if l ≠ [] then some l else inferTileBagWith ts igid histories tweaks σ
  | Option.none => inferTileBagWith ts igid histories tweaks σ

/-- `Game._get_initial_tile_bag` with the repository's own correction
table. -/
def getInitialTileBag (ts igid : Nat) (tileBagField : Option (List Tile))
    (histories : List (List HistMsg)) (σ : RngState) : Option (List Tile) :=
  getInitialTileBagWith ts igid tileBagField histories tileBagTweaks σ

/-- Modelled from the spec: `enums.GameBoardTypes.Nothing.value`, the
"empty" board-cell-type code (the `enums` module is not among the analysed
sources).  Its numeric value is immaterial to every claim: it is only the
initial cell value and the value cells are compared against. -/
def gameBoardTypeNothing : Int := 8

/-- Modelled from the spec: `enums.CommandsToServer.DoGameAction.value`,
reconstructed from the ordered handler-table comments in
`LogProcessor.__init__` (source lines 320-329): five members come before
`DoGameAction`. -/
def doGameActionVal : Nat := 5

/-- The reconstructed per-game state (`Game.__init__`, source lines
630-660).  Python `None` fields start as `PyVal.none`; mutable containers
are `PyVal`s so the handlers can apply Python subscription and store
semantics to them.  The four simulation-related fields (`server_game`,
`_server_game_player_id_to_client`, `is_server_game_synchronized`,
`sync_log`) belong to the replay step, whose inputs and outputs the
comparison embedding takes as parameters, and are not carried here. -/
structure Game where
  logTimestamp : Nat
  gameId : PyVal
  internalGameId : PyVal
  verbose : Bool
  state : PyVal
  mode : PyVal
  maxPlayers : PyVal
  tileBag : PyVal
  begin : PyVal
  endTime : PyVal
  score : PyVal
  playerIdToUsername : List (PyVal × PyVal)
  usernameToPlayerId : List (PyVal × PyVal)
  playerJoinOrder : List PyVal
  board : PyVal
  scoreSheetPlayers : PyVal
  scoreSheetChainSize : PyVal
  playedTilesOrder : List PyVal
  tileRackTiles : List PyVal
  initialTileRacks : PyVal
  tileRacks : PyVal
  additionalTileRackTilesOrder : List PyVal
  actions : List PyVal
  usernameToGameHistory : List (PyVal × List PyVal)
  expired : Bool
deriving DecidableEq

/-- `Game.__init__`. -/
def initGame (logTimestamp : Nat) (gameId internalGameId : PyVal) (verbose : Bool) : Game :=
  { logTimestamp := logTimestamp
    gameId := gameId
    internalGameId := internalGameId
    verbose := verbose
    state := .none
    mode := .none
    maxPlayers := .none
    tileBag := .none
    begin := .none
    endTime := .none
    score := .none
    playerIdToUsername := []
    usernameToPlayerId := []
    playerJoinOrder := []
    board := .list ((List.range 12).map fun _ =>
      .list ((List.range 9).map fun _ => .int gameBoardTypeNothing))
    scoreSheetPlayers := .list ((List.range 6).map fun _ =>
      .list [.int 0, .int 0, .int 0, .int 0, .int 0, .int 0, .int 0, .int 60])
    scoreSheetChainSize := .list ((List.range 7).map fun _ => .int 0)
    playedTilesOrder := []
    tileRackTiles := []
    initialTileRacks := .list ((List.range 6).map fun _ =>
      .list [.none, .none, .none, .none, .none, .none])
    tileRacks := .list ((List.range 6).map fun _ =>
      .list [.none, .none, .none, .none, .none, .none])
    additionalTileRackTilesOrder := []
    actions := []
    usernameToGameHistory := []
    expired := false }

/-- `Game._sync_compare` (source lines 732-751): the dimension counts as
synchronized exactly when the two Python string representations are equal;
on a mismatch the diff log gets either per-player rack diffs (for
`tile_racks`, by zipping the two rack lists) or the two whole renderings.
The result is (synchronized-for-this-dimension, appended log lines); the
source instead clears a shared flag, which the caller embedding folds
conjunctively. -/
def syncCompare (verbose : Bool) (name : String) (first second : PyVal) :
    Except PyErr (Bool × List String) := do
  let s1 := pyStr first
  let s2 := pyStr second
  let log0 := if verbose then [name ++ ": " ++ s1] else []
  if s1 ≠ s2 then
    if name = "tile_racks" then do
      let n ← pyLen first
      let e1 ← pyIter first
      let e2 ← pyIter second
      let racksLog := ((List.range n).zip (e1.zip e2)).foldl
        (fun log p =>
          let (i, r1, r2) := (p.1, p.2.1, p.2.2)
          if pyEq r1 r2 then log
          else log ++ [name ++ " diff for player_id " ++ toString i ++ "!",
                       pyStr r1, pyStr r2])
        []
      .ok (false, log0 ++ racksLog)
    else .ok (false, log0 ++ [name ++ " diff!", s1, s2])
  else .ok (true, log0)

/-- The per-player server history lists of `Game.compare_with_server_game`
(source lines 711-717): one list per simulation player; a message with no
target player is appended to every list, a targeted message to its
player's list (an out-of-range target raises `IndexError`). -/
def serverHistStep (acc : List (List PyVal)) (p : Option Nat × PyVal) :
    Except PyErr (List (List PyVal)) :=
  match p.1 with
  | Option.none => .ok (acc.map fun gh => gh ++ [p.2])
  | some pid =>
    if pid < acc.length then .ok (acc.set pid (acc.getD pid [] ++ [p.2]))
    else .error .indexError

def buildServerHistories (n : Nat) (msgs : List (Option Nat × PyVal)) :
    Except PyErr (List (List PyVal)) :=
  msgs.foldlM serverHistStep (List.replicate n ([] : List PyVal))

/-- The history-comparison loop of `Game.compare_with_server_game` (source
lines 724-730): each player's observed history is compared (Python `!=`)
against the prefix of the simulation history of the same length; the zip
truncates to the shorter of the two player lists. -/
def histStep (acc : Bool × List String) (p : Nat × List PyVal × List PyVal) :
    Bool × List String :=
  let (i, lh, sh) := (p.1, p.2.1, p.2.2)
  let su := sh.take lh.length
  if pyEqList lh su then acc
  else (false, acc.2 ++ ["player_id_to_game_history diff for player_id " ++
                         toString i ++ "!",
                         pyStr (.list lh), pyStr (.list su)])

def historyDiffs (localHists serverHists : List (List PyVal)) : Bool × List String :=
  ((List.range (min localHists.length serverHists.length)).map fun i =>
      (i, localHists.getD i [], serverHists.getD i [])).foldl histStep (true, [])

/-- `Game.compare_with_server_game` (source lines 687-730).  The observed
side comes from the reconstructed game, the simulated side from the
reference simulation consumed as a black box (spec section 6), so the
simulation's readable fields are parameters: its board, score-sheet player
rows, chain sizes, racks (`none` when the simulation tracks no racks), its
player count and its ordered (target-player, message) history entries.
`localHists` is `[self.username_to_game_history[u] for u in
self.player_id_to_username.values()]` prepared by the caller.  Returns
(`is_server_game_synchronized`, `sync_log`). -/
def compareWithServerGame (verbose : Bool) (numPlayers : Nat)
    (board serverBoard : PyVal)
    (scoreSheetPlayers serverPlayerData : PyVal)
    (chainSize serverChainSize : PyVal)
    (tileRacks : PyVal) (serverTileRacks : Option PyVal)
    (localHists : List (List PyVal))
    (serverNumPlayers : Nat) (serverMsgs : List (Option Nat × PyVal)) :
    Except PyErr (Bool × List String) := do
  let (okBoard, logBoard) ← syncCompare verbose "board" board serverBoard
  let obsScores ← pySliceTake scoreSheetPlayers numPlayers
  let rows ← pyIter serverPlayerData
  let simScores ← rows.mapM fun row => pySliceTake row 8
  let (okScores, logScores) ←
    syncCompare verbose "score_sheet_players" obsScores (.list simScores)
  let (okChain, logChain) ←
    syncCompare verbose "score_sheet_chain_size" chainSize serverChainSize
  let (okRacks, logRacks) ←
    match serverTileRacks with
    | Option.none => pure (true, ([] : List String))
    | some racksObj => do
      let racks ← pyIter racksObj
      let simRacks ← racks.mapM fun rack => do
        let tds ← pyIter rack
        let slots ← tds.mapM fun td =>
          if pyTruthy td then pySubscript td (.int 0) else pure .none
        pure (PyVal.list slots)
      let obsRacks ← pySliceTake tileRacks numPlayers
      syncCompare verbose "tile_racks" obsRacks (.list simRacks)
  let serverHists ← buildServerHistories serverNumPlayers serverMsgs
  let verboseHistLog :=
    if verbose then
      "player_id_to_game_history:" :: localHists.map fun lh => pyStr (.list lh)
    else []
  let (okHists, logHists) := historyDiffs localHists serverHists
  pure (okBoard && okScores && okChain && okRacks && okHists,
    logBoard ++ logScores ++ logChain ++ logRacks ++ verboseHistLog ++ logHists)

mutual

/-- Structural sequence equality that ignores the list/tuple distinction:
the claim-side notion of "structurally equal values" used to state that
`_sync_compare` reports representation differences as desynchronization. -/
def sameSeq : PyVal → PyVal → Bool
  | .list a, .list b => sameSeqList a b
  | .list a, .tuple b => sameSeqList a b
  | .tuple a, .list b => sameSeqList a b
  | .tuple a, .tuple b => sameSeqList a b
  | .int a, .int b => a == b
  | .str a, .str b => a == b
  | .none, .none => true
  | .dict a, .dict b => sameSeqPairs a b
  | _, _ => false

def sameSeqList : List PyVal → List PyVal → Bool
  | [], [] => true
  | a :: as_, b :: bs => sameSeq a b && sameSeqList as_ bs
  | _, _ => false

def sameSeqPairs : List (PyVal × PyVal) → List (PyVal × PyVal) → Bool
  | [], [] => true
  | (k, v) :: as_, (k2, v2) :: bs => sameSeq k k2 && sameSeq v v2 && sameSeqPairs as_ bs
  | _, _ => false

end

/-- `LineTypes` (source lines 103-113). -/
inductive LineTypes where
  | time
  | connect
  | disconnect
  | commandToClient
  | commandToServer
  | gameExpired
  | log
  | blankLine
  | connectionMade
  | error
deriving DecidableEq

/-- The parsed payload a line handler returns with its event (source:
the `parse_line_data` tuples).  A time value is kept as its matched
literal: no claim depends on float arithmetic. -/
inductive EventData where
  | time (s : String)
  | commandToClient (ids : List Nat) (commands : PyVal)
  | commandToServer (id : Nat) (command : PyVal)
  | log (entry : PyVal)
  | connect (id : Nat) (username : String)
  | disconnect (id : Nat)
  | gameExpired (id : Nat)
  | unit
deriving DecidableEq

/-- One item yielded by `LogParser.go`: the handled line type (`none` for
an unmatched line), the 1-based line number, the raw line, and the parsed
data. -/
structure Event where
  lt : Option LineTypes
  lineNo : Nat
  line : String
  data : Option EventData
deriving DecidableEq

/-- Prefix test over the character lists (kernel-reducible substitute for
`String.startsWith`). -/
def strStarts (line pre : String) : Bool :=
  line.toList.take pre.toList.length == pre.toList

/-- Split a character list at commas (kernel-reducible substitute for
`String.splitOn ","`). -/
def splitComma : List Char → List (List Char)
  | [] => [[]]
  | c :: rest =>
    match splitComma rest with
    | g :: gs => if c == Char.ofNat 44 then [] :: g :: gs else (c :: g) :: gs
    | [] => [[c]]

/-- Numeric value of a digit string. -/
def natOfDigits (cs : List Char) : Nat :=
  cs.foldl (fun a c => a * 10 + (c.toNat - 48)) 0

/-- `^time: (?P<time>[\d\.]+)$`. -/
def matchTime (line : String) : Option String :=
  if strStarts line "time: " then
    let rest := (line.toList.drop 6)
    if rest ≠ [] ∧ rest.all fun c => c.isDigit || c == Char.ofNat 46 then
      some (String.mk rest)
    else Option.none
  else Option.none

/-- `^(?P<client_ids>[\d,]+) <- (?P<commands>.*)`: the character class and
the following space are disjoint, so the greedy group is exactly the
maximal digits-and-commas run. -/
def matchCommandToClient (line : String) : Option (String × String) :=
  let cs := line.toList
  let run := cs.takeWhile fun c => c.isDigit || c == Char.ofNat 44
  if run ≠ [] ∧ (cs.drop run.length).take 4 = " <- ".toList then
    some (String.mk run, String.mk (cs.drop (run.length + 4)))
  else Option.none

/-- `^(?P<client_id>\d+) -> (?P<command>.*)`. -/
def matchCommandToServer (line : String) : Option (String × String) :=
  let cs := line.toList
  let run := cs.takeWhile Char.isDigit
  if run ≠ [] ∧ (cs.drop run.length).take 4 = " -> ".toList then
    some (String.mk run, String.mk (cs.drop (run.length + 4)))
  else Option.none

/-- Consume one or more digits. -/
def dropDigits1 (cs : List Char) : Option (List Char) :=
  let d := cs.takeWhile Char.isDigit
  if d = [] then Option.none else some (cs.drop d.length)

/-- Consume one expected character. -/
def dropChar (c : Char) : List Char → Option (List Char)
  | x :: rest => if x = c then some rest else Option.none
  | [] => Option.none

/-- Consume `\d+\.\d+\.\d+\.\d+` (deterministic: the greedy digit runs end
at the literal dots). -/
def dropIp (cs : List Char) : Option (List Char) := do
  let r1 ← dropDigits1 cs
  let r2 ← dropChar (Char.ofNat 46) r1
  let r3 ← dropDigits1 r2
  let r4 ← dropChar (Char.ofNat 46) r3
  let r5 ← dropDigits1 r4
  let r6 ← dropChar (Char.ofNat 46) r5
  dropDigits1 r6

/-- The suffix after the greedy username group of the first connect
pattern: ` \d+\.\d+\.\d+\.\d+ \S+(?: (?:True|False))?$`.  The token run is
maximal, so what follows it is empty or starts with a space; shrinking the
token cannot create a match the maximal run missed. -/
def connectSuffixOk (cs : List Char) : Bool :=
  (do
    let r1 ← dropChar (Char.ofNat 32) cs
    let r2 ← dropIp r1
    let r3 ← dropChar (Char.ofNat 32) r2
    let tok := r3.takeWhile fun c => c ≠ Char.ofNat 32
    if tok = [] then Option.none
    else
      let rest := r3.drop tok.length
      if rest = [] ∨ rest = " True".toList ∨ rest = " False".toList then some ()
      else Option.none).isSome

/-- `^(?P<client_id>\d+) connect (?P<username>.+)
\d+\.\d+\.\d+\.\d+ \S+(?: (?:True|False))?$` (first connect shape): the
greedy username takes the largest split whose suffix still matches. -/
def matchConnect1 (line : String) : Option (Nat × String) := do
  let cs := line.toList
  let d := cs.takeWhile Char.isDigit
  if d = [] then failure
  let afterId := cs.drop d.length
  if afterId.take 9 ≠ " connect ".toList then failure
  let r := afterId.drop 9
  let i ← (List.range (r.length + 1)).reverse.find? fun i =>
    1 ≤ i && connectSuffixOk (r.drop i)
  pure (natOfDigits d, String.mk (r.take i))

/-- `^(?P<client_id>\d+) disconnect$`. -/
def matchDisconnect (line : String) : Option Nat :=
  let cs := line.toList
  let d := cs.takeWhile Char.isDigit
  if d ≠ [] ∧ cs.drop d.length = " disconnect".toList then some (natOfDigits d)
  else Option.none

/-- `^game #(?P<game_id>\d+) expired(?: \(internal #\d+\))?$`. -/
def matchGameExpired (line : String) : Option Nat :=
  let cs := line.toList
  if cs.take 6 = "game #".toList then
    let r := cs.drop 6
    let d := r.takeWhile Char.isDigit
    if d = [] then Option.none
    else
      let rest := r.drop d.length
      let internalTag := " expired (internal #".toList
      if rest = " expired".toList then some (natOfDigits d)
      else if rest.take internalTag.length = internalTag ∧
          dropDigits1 (rest.drop internalTag.length) = some ")".toList then
        some (natOfDigits d)
      else Option.none
  else Option.none

/-- `^(?P<client_id>\d+) connect \d+\.\d+\.\d+\.\d+ (?P<username>.+)$`
(second, legacy connect shape). -/
def matchConnect2 (line : String) : Option (Nat × String) := do
  let cs := line.toList
  let d := cs.takeWhile Char.isDigit
  if d = [] then failure
  let afterId := cs.drop d.length
  if afterId.take 9 ≠ " connect ".toList then failure
  let r1 ← dropIp (afterId.drop 9)
  let r2 ← dropChar (Char.ofNat 32) r1
  if r2 = [] then failure
  pure (natOfDigits d, String.mk r2)

/-- `^\d+ -> (?P<client_id>\d+) disconnect$` (disconnect after error). -/
def matchDisconnect2 (line : String) : Option Nat := do
  let cs := line.toList
  let d1 := cs.takeWhile Char.isDigit
  if d1 = [] then failure
  let r1 := cs.drop d1.length
  if r1.take 4 ≠ " -> ".toList then failure
  let r2 := r1.drop 4
  let d2 := r2.takeWhile Char.isDigit
  if d2 = [] then failure
  if r2.drop d2.length = " disconnect".toList then pure (natOfDigits d2) else failure

/-- `^\d+ connect (?P<client_id>\d+) -> (?P<command>.*)` (command to
server after a connect printing error). -/
def matchCommandToServer2 (line : String) : Option (String × String) := do
  let cs := line.toList
  let d1 := cs.takeWhile Char.isDigit
  if d1 = [] then failure
  let r1 := cs.drop d1.length
  if r1.take 9 ≠ " connect ".toList then failure
  let r2 := r1.drop 9
  let d2 := r2.takeWhile Char.isDigit
  if d2 = [] then failure
  let r3 := r2.drop d2.length
  if r3.take 4 ≠ " -> ".toList then failure
  pure (String.mk d2, String.mk (r3.drop 4))

/-- The ignorable-noise alternation (`regexes_to_ignore`, source lines
120-130). -/
def matchError (line : String) : Bool :=
  strStarts line " " || strStarts line "AttributeError:" ||
  line = "connection_lost" || strStarts line "Exception in callback " ||
  strStarts line "handle:" || strStarts line "ImportError:" ||
  line = "socket.send() raised exception." ||
  strStarts line "Traceback (most recent call last):" ||
  strStarts line "UnicodeEncodeError:"

/-- `[int(x) for x in client_ids.split(',')]`: an empty segment raises
`ValueError` (handled as a failed parse). -/
def parseClientIds (s : String) : Option (List Nat) :=
  let segs := splitComma s.toList
  if segs.all fun t => t ≠ [] ∧ t.all Char.isDigit then
    some (segs.map natOfDigits)
  else Option.none

/-- Outcome of classifying one line. -/
inductive LineOut where
  | noMatch
  | stop
  | ev (lt : LineTypes) (d : EventData)
deriving DecidableEq

/-- Matchers 6-13 of `LogParser` (connect, disconnect, game-expired,
legacy shapes, connection-made, ignorable noise), tried in source order.
The legacy command-to-server shape falls through to the remaining
matchers when its payload fails to decode, like in the source. -/
def classifyTail (decode : String → Option PyVal) (cm : Nat) (line : String) :
    Nat × LineOut :=
  match matchConnect1 line with
  | some (cid, u) => (cm, .ev .connect (.connect cid u))
  | Option.none =>
  match matchDisconnect line with
  | some cid => (cm, .ev .disconnect (.disconnect cid))
  | Option.none =>
  match matchGameExpired line with
  | some gid => (cm, .ev .gameExpired (.gameExpired gid))
  | Option.none =>
  match matchConnect2 line with
  | some (cid, u) => (cm, .ev .connect (.connect cid u))
  | Option.none =>
  match matchDisconnect2 line with
  | some cid => (cm, .ev .disconnect (.disconnect cid))
  | Option.none =>
  match matchCommandToServer2 line with
  | some (cidStr, cmdStr) =>
    (match decode cmdStr with
     | some v => (cm, .ev .commandToServer (.commandToServer (natOfDigits cidStr.toList) v))
     | Option.none =>
       if line = "connection_made" then
         if cm + 1 = 1 then (cm + 1, .ev .connectionMade .unit) else (cm + 1, .stop)
       else if matchError line then (cm, .ev .error .unit)
       else (cm, .noMatch))
  | Option.none =>
  if line = "connection_made" then
    if cm + 1 = 1 then (cm + 1, .ev .connectionMade .unit) else (cm + 1, .stop)
  else if matchError line then (cm, .ev .error .unit)
  else (cm, .noMatch)

/-- Matcher 5 (`log`) onward. -/
def classifyFrom5 (decode : String → Option PyVal) (cm : Nat) (line : String) :
    Nat × LineOut :=
  if strStarts line "\x7b" then
    match decode line with
    | some v => (cm, .ev .log (.log v))
    | Option.none => classifyTail decode cm line
  else classifyTail decode cm line

/-- Matcher 4 (`command_to_server`) onward. -/
def classifyFrom4 (decode : String → Option PyVal) (cm : Nat) (line : String) :
    Nat × LineOut :=
  match matchCommandToServer line with
  | some (cidStr, cmdStr) =>
    (match decode cmdStr with
     | some v => (cm, .ev .commandToServer (.commandToServer (natOfDigits cidStr.toList) v))
     | Option.none => classifyFrom5 decode cm line)
  | Option.none => classifyFrom5 decode cm line

/-- Matcher 3 (blank line) onward. -/
def classifyFrom3 (decode : String → Option PyVal) (cm : Nat) (line : String) :
    Nat × LineOut :=
  if line = "" then (cm, .ev .blankLine .unit)
  else classifyFrom4 decode cm line

/-- Classify one raw line: the ordered-first-match walk of
`LogParser._line_matchers_and_handlers` with handler fallthrough (a
handler returning `None` resumes the walk at the next matcher).  Only the
command-to-client handler can raise: its translate and reorder steps run
after a successful decode. -/
def classifyLine (tr : CommandsToClientTranslator) (decode : String → Option PyVal)
    (cm : Nat) (line : String) : Except PyErr (Nat × LineOut) :=
  match matchTime line with
  | some t => .ok (cm, .ev .time (.time t))
  | Option.none =>
  match matchCommandToClient line with
  | some (idsStr, cmdsStr) =>
    (match parseClientIds idsStr, decode cmdsStr with
     | some ids, some cmds => do
       let c1 ← translatorTranslate tr cmds
       let c2 ← reorderCommands c1
       pure (cm, .ev .commandToClient (.commandToClient ids c2))
     | _, _ => .ok (classifyFrom3 decode cm line))
  | Option.none => .ok (classifyFrom3 decode cm line)

/-- The line loop of `LogParser.go` (source lines 156-192): events in
order, the error that ended the loop if one was raised, the line type of
the last handled line, and the line number for a synthesized trailing
blank.  A second connection-made stops consumption without yielding. -/
def parserRun (tr : CommandsToClientTranslator) (decode : String → Option PyVal)
    (cm n : Nat) (last : Option LineTypes) :
    List String → List Event × Option PyErr × Option LineTypes × Nat
  | [] => ([], Option.none, last, n)
  | l :: ls =>
    match classifyLine tr decode cm l with
    | .error e => ([], some e, last, n)
    | .ok (_, .stop) => ([], Option.none, some LineTypes.connectionMade, n + 1)
    | .ok (cm2, .noMatch) =>
      let (evs, err, lst, nf) := parserRun tr decode cm2 (n + 1) Option.none ls
      (⟨Option.none, n, l, Option.none⟩ :: evs, err, lst, nf)
    | .ok (cm2, .ev lt d) =>
      let (evs, err, lst, nf) := parserRun tr decode cm2 (n + 1) (some lt) ls
      (⟨some lt, n, l, some d⟩ :: evs, err, lst, nf)

/-- `LogParser.go` over already-split lines (the source strips the
trailing newline of each line first): the yielded events and the error
that aborted the generator, if any.  When the loop ends without an
exception and the last handled line type is not blank-line, a blank-line
event is synthesized. -/
def parserGo (tr : CommandsToClientTranslator) (decode : String → Option PyVal)
    (lines : List String) : List Event × Option PyErr :=
  match parserRun tr decode 0 1 Option.none lines with
  | (evs, some e, _, _) => (evs, some e)
  | (evs, Option.none, last, nf) =>
    if last = some LineTypes.blankLine then (evs, Option.none)
    else (evs ++ [⟨some LineTypes.blankLine, nf, "", some .unit⟩], Option.none)

/-- A `LogParser` built for a log timestamp, run on a file's lines. -/
def logParserGo (logTimestamp : Nat) (decode : String → Option PyVal)
    (lines : List String) : List Event × Option PyErr :=
  parserGo (mkTranslator (getTranslations logTimestamp)) decode lines

/-- `enums.CommandsToClient.SetScoreSheetCell.value`. -/
def setScoreSheetCellVal : Nat := commandsToClientMembers.indexOf "SetScoreSheetCell"

/-- `enums.CommandsToClient.SetScoreSheet.value`. -/
def setScoreSheetVal : Nat := commandsToClientMembers.indexOf "SetScoreSheet"

/-- `enums.CommandsToClient.SetGamePlayerJoin.value`. -/
def setGamePlayerJoinVal : Nat := commandsToClientMembers.indexOf "SetGamePlayerJoin"

/-- `enums.CommandsToClient.SetGamePlayerRejoin.value`. -/
def setGamePlayerRejoinVal : Nat := commandsToClientMembers.indexOf "SetGamePlayerRejoin"

/-- `enums.CommandsToClient.SetGamePlayerLeave.value`. -/
def setGamePlayerLeaveVal : Nat := commandsToClientMembers.indexOf "SetGamePlayerLeave"

/-- `enums.CommandsToClient.SetGameWatcherClientId.value`. -/
def setGameWatcherClientIdVal : Nat := commandsToClientMembers.indexOf "SetGameWatcherClientId"

/-- `enums.CommandsToClient.ReturnWatcherToLobby.value`. -/
def returnWatcherToLobbyVal : Nat := commandsToClientMembers.indexOf "ReturnWatcherToLobby"

/-- `enums.CommandsToClient.AddGameHistoryMessage.value`. -/
def addGameHistoryMessageVal : Nat := commandsToClientMembers.indexOf "AddGameHistoryMessage"

/-- `enums.CommandsToClient.AddGameHistoryMessages.value`. -/
def addGameHistoryMessagesVal : Nat := commandsToClientMembers.indexOf "AddGameHistoryMessages"

/-- `enums.CommandsToClient.SetTile.value`. -/
def setTileVal : Nat := commandsToClientMembers.indexOf "SetTile"

/-- `enums.CommandsToClient.RemoveTile.value`. -/
def removeTileVal : Nat := commandsToClientMembers.indexOf "RemoveTile"

/-- `Enums.lookups['CommandsToClient'].index('SetGamePlayerClientId')`. -/
def setGamePlayerClientIdVal : Nat := lookupsCommandsToClient.indexOf "SetGamePlayerClientId"

/-- Modelled from the spec: `enums.GameHistoryMessages.DrewPositionTile`
as used by `Game.translate_add_game_history_message`; shared with the
inferencer's modelled id. -/
def drewPositionTileVal : Nat := drewPositionTileId

/-- First value for a Python-`==`-compared key in a `PyVal`-keyed dict,
raising on an unhashable key, `KeyError` on a miss. -/
def pvDictGet {α : Type} (xs : List (PyVal × α)) (k : PyVal) : Except PyErr α :=
  if pyHashable k then
    match xs.find? fun p => pyEq k p.1 with
    | some p => .ok p.2
    | Option.none => .error .keyError
  else .error .typeError

/-- Python `dict.get`: `none` on a miss, raising on an unhashable key. -/
def pvDictGetOpt {α : Type} (xs : List (PyVal × α)) (k : PyVal) : Except PyErr (Option α) :=
  if pyHashable k then .ok ((xs.find? fun p => pyEq k p.1).map Prod.snd)
  else .error .typeError

/-- Python dict item assignment on a `PyVal`-keyed dict. -/
def pvDictPut {α : Type} (xs : List (PyVal × α)) (k : PyVal) (v : α) :
    Except PyErr (List (PyVal × α)) :=
  if pyHashable k then
    .ok (match xs.find? fun p => pyEq k p.1 with
      | some _ => xs.map fun p => if pyEq k p.1 then (p.1, v) else p
      | Option.none => xs ++ [(k, v)])
  else .error .typeError

/-- Python `del d[k]` on a `PyVal`-keyed dict. -/
def pvDictDel {α : Type} (xs : List (PyVal × α)) (k : PyVal) :
    Except PyErr (List (PyVal × α)) :=
  if pyHashable k then
    if (xs.find? fun p => pyEq k p.1).isSome then
      .ok (xs.filter fun p => !pyEq k p.1)
    else .error .keyError
  else .error .typeError

/-- Python `k in d` on a `PyVal`-keyed dict. -/
def pvDictHas {α : Type} (xs : List (PyVal × α)) (k : PyVal) : Except PyErr Bool :=
  if pyHashable k then .ok ((xs.find? fun p => pyEq k p.1).isSome)
  else .error .typeError

/-- Python `set.add`. -/
def pySetAdd (s : List PyVal) (v : PyVal) : Except PyErr (List PyVal) :=
  if pyHashable v then .ok (if s.any fun x => pyEq v x then s else s ++ [v])
  else .error .typeError

/-- Python `v in set`. -/
def pySetHas (s : List PyVal) (v : PyVal) : Except PyErr Bool :=
  if pyHashable v then .ok (s.any fun x => pyEq v x) else .error .typeError

/-- First value for a `Nat` key in an insertion-ordered association
list. -/
def natAssocFind {α : Type} (xs : List (Nat × α)) (k : Nat) : Option α :=
  (xs.find? fun p => p.1 = k).map Prod.snd

/-- Replace in place or append for a `Nat`-keyed association list. -/
def natAssocPut {α : Type} (xs : List (Nat × α)) (k : Nat) (v : α) : List (Nat × α) :=
  match xs.find? fun p => p.1 = k with
  | some _ => xs.map fun p => if p.1 = k then (p.1, v) else p
  | Option.none => xs ++ [(k, v)]

/-- The per-file state of `LogProcessor` (source lines 262-337): the
identity and routing maps, the open games, the queued disconnects, the
games expired but not yet yielded, and the last seen time line. -/
structure PState where
  clientIdToUsername : List (Nat × String)
  usernameToClientId : List (String × Nat)
  clientIdToGameId : List (PyVal × PyVal)
  gameIdToGame : List (PyVal × Game)
  delayedDisconnects : List Nat
  expiredGames : List Game
  time : Option String
deriving DecidableEq

/-- The freshly constructed `LogProcessor` state. -/
def initPState : PState :=
  { clientIdToUsername := []
    usernameToClientId := []
    clientIdToGameId := []
    gameIdToGame := []
    delayedDisconnects := []
    expiredGames := []
    time := Option.none }

/-- `client_ids[0]`. -/
def idsHead (ids : List Nat) : Except PyErr Nat :=
  match ids with
  | [] => .error .indexError
  | x :: _ => .ok x

/-- `self._game_id_to_game[self._client_id_to_game_id[client_id]]`. -/
def getGameForClient (s : PState) (clientId : Nat) : Except PyErr (PyVal × Game) := do
  let gid ← pvDictGet s.clientIdToGameId (.int clientId)
  let game ← pvDictGet s.gameIdToGame gid
  pure (gid, game)

/-- Write an updated game back under its id (modelling in-place mutation
of the shared game object). -/
def putGame (s : PState) (gid : PyVal) (game : Game) : PState :=
  { s with gameIdToGame :=
      match s.gameIdToGame.find? fun p => pyEq gid p.1 with
      | some _ => s.gameIdToGame.map fun p => if pyEq gid p.1 then (p.1, game) else p
      | Option.none => s.gameIdToGame ++ [(gid, game)] }

/-- The rack scan of the board-cell handler (source lines 400-404): in
each of the first `n` racks, blank the first slot `==`-equal to the played
tile. -/
def rackRemoveTile (tile rack : PyVal) : Except PyErr PyVal := do
  let entries ← pyIter rack
  match entries.enum.find? fun p => pyEq p.2 tile with
  | some p => pyStore rack (.int p.1) .none
  | Option.none => .ok rack

/-- `game.tile_racks[:n]` iterated with the slot blanking applied to the
shared rack objects (a non-list rack container fails exactly where the
slice would). -/
def updateTileRacks (tileRacks : PyVal) (n : Nat) (tile : PyVal) : Except PyErr PyVal :=
  match tileRacks with
  | .list racks => do
    let racks2 ← racks.enum.mapM fun p =>
      if p.1 < n then rackRemoveTile tile p.2 else pure p.2
    pure (.list racks2)
  | _ => .error .typeError

/-- `LogProcessor._handle_command_to_client__set_game_board_cell` (source
lines 389-406). -/
def handleSetGameBoardCell (s : PState) (ids : List Nat) (c : PyVal) :
    Except PyErr PState := do
  let cid ← idsHead ids
  let x ← pySubscript c (.int 1)
  let y ← pySubscript c (.int 2)
  let t ← pySubscript c (.int 3)
  let (gid, game) ← getGameForClient s cid
  let col ← pySubscript game.board x
  let cell ← pySubscript col y
  let game2 ←
    if pyEq cell (.int gameBoardTypeNothing) then do
      let tile := PyVal.tuple [x, y]
      let racks2 ← updateTileRacks game.tileRacks game.playerIdToUsername.length tile
      pure { game with
        playedTilesOrder := game.playedTilesOrder ++ [tile]
        tileRacks := racks2 }
    else pure game
  let col2 ← pySubscript game2.board x
  let col3 ← pyStore col2 y t
  let board2 ← pyStore game2.board x col3
  pure (putGame s gid { game2 with board := board2 })

/-- `LogProcessor._handle_command_to_client__set_score_sheet_cell` (source
lines 408-416).  A non-int row makes Python's `row < 6` comparison raise. -/
def handleSetScoreSheetCell (s : PState) (ids : List Nat) (c : PyVal) :
    Except PyErr PState := do
  let cid ← idsHead ids
  let row ← pySubscript c (.int 1)
  let idx ← pySubscript c (.int 2)
  let value ← pySubscript c (.int 3)
  let (gid, game) ← getGameForClient s cid
  match row with
  | .int r =>
    if r < 6 then do
      let prow ← pySubscript game.scoreSheetPlayers row
      let prow2 ← pyStore prow idx value
      let players2 ← pyStore game.scoreSheetPlayers row prow2
      pure (putGame s gid { game with scoreSheetPlayers := players2 })
    else do
      let chain2 ← pyStore game.scoreSheetChainSize idx value
      pure (putGame s gid { game with scoreSheetChainSize := chain2 })
  | _ => .error .typeError

/-- `LogProcessor._handle_command_to_client__set_score_sheet` (source
lines 418-424): Python slice assignment on the player rows, then the chain
row is rebound. -/
def handleSetScoreSheet (s : PState) (ids : List Nat) (c : PyVal) :
    Except PyErr PState := do
  let cid ← idsHead ids
  let data ← pySubscript c (.int 1)
  let (gid, game) ← getGameForClient s cid
  let d0 ← pySubscript data (.int 0)
  let n ← pyLen d0
  let elems ← pyIter d0
  let players2 ←
    match game.scoreSheetPlayers with
    | .list rows => pure (PyVal.list (elems ++ rows.drop n))
    | _ => .error .typeError
  let d1 ← pySubscript data (.int 1)
  pure (putGame s gid { game with scoreSheetPlayers := players2, scoreSheetChainSize := d1 })

/-- `LogProcessor._add_client_id_to_game`. -/
def addClientIdToGame (s : PState) (gameId clientId : PyVal) : Except PyErr PState := do
  let m ← pvDictPut s.clientIdToGameId clientId gameId
  pure { s with clientIdToGameId := m }

/-- `LogProcessor._remove_client_id_from_game`. -/
def removeClientIdFromGame (s : PState) (clientId : PyVal) : Except PyErr PState := do
  let has ← pvDictHas s.clientIdToGameId clientId
  if has then do
    let m ← pvDictDel s.clientIdToGameId clientId
    pure { s with clientIdToGameId := m }
  else pure s

/-- `Game.translate_add_game_history_message` (source lines 662-667): a
drew-position-tile message whose second slot is an int gets that slot
replaced by the player's username. -/
def translateAddGameHistoryMessage (game : Game) (message : PyVal) :
    Except PyErr PyVal := do
  let m0 ← pySubscript message (.int 0)
  if pyEq m0 (.int drewPositionTileVal) then do
    let m1 ← pySubscript message (.int 1)
    match m1 with
    | .int _ => do
      let uname ← pvDictGet game.playerIdToUsername m1
      match message with
      | .list ms => pure (.list (ms.take 1 ++ [uname] ++ ms.drop 2))
      | _ => .error .typeError
    | _ => pure message
  else pure message

/-- `LogProcessor._handle_command_to_client__add_game_history_message`
(source lines 441-452), for one client id of the batch. -/
def addGameHistoryMessageOne (s : PState) (cid : Nat) (c : PyVal) :
    Except PyErr PState := do
  let (gid, game) ← getGameForClient s cid
  let username ←
    match natAssocFind s.clientIdToUsername cid with
    | some u => pure u
    | Option.none => .error .keyError
  let pid ← pvDictGetOpt game.usernameToPlayerId (.str username)
  match pid with
  | Option.none => pure s
  | some _ => do
    let tail ← pySliceFrom c 1
    let msg ← translateAddGameHistoryMessage game tail
    match game.usernameToGameHistory.find? fun p => pyEq (.str username) p.1 with
    | some _ =>
      let hist2 := game.usernameToGameHistory.map fun p =>
        if pyEq (.str username) p.1 then (p.1, p.2 ++ [msg]) else p
      pure (putGame s gid { game with usernameToGameHistory := hist2 })
    | Option.none => .error .keyError

/-- `LogProcessor._handle_command_to_client__add_game_history_messages`
(source lines 454-463), for one client id of the batch. -/
def addGameHistoryMessagesOne (s : PState) (cid : Nat) (c : PyVal) :
    Except PyErr PState := do
  let (gid, game) ← getGameForClient s cid
  let username ←
    match natAssocFind s.clientIdToUsername cid with
    | some u => pure u
    | Option.none => .error .keyError
  let pid ← pvDictGetOpt game.usernameToPlayerId (.str username)
  match pid with
  | Option.none => pure s
  | some _ => do
    let c1 ← pySubscript c (.int 1)
    let ms ← pyIter c1
    let translated ← ms.mapM fun m => translateAddGameHistoryMessage game m
    let hist2 ←
      match game.usernameToGameHistory.find? fun p => pyEq (.str username) p.1 with
      | some _ => pure (game.usernameToGameHistory.map fun p =>
          if pyEq (.str username) p.1 then (p.1, translated) else p)
      | Option.none =>
        if pyHashable (.str username) then
          pure (game.usernameToGameHistory ++ [(.str username, translated)])
        else .error .typeError
    pure (putGame s gid { game with usernameToGameHistory := hist2 })

/-- `self.username_to_player_id[self._client_id_to_username[client_id]]`
with the direct (raising) lookup used by the tile handlers. -/
def playerIdForClient (s : PState) (game : Game) (cid : Nat) : Except PyErr PyVal := do
  let username ←
    match natAssocFind s.clientIdToUsername cid with
    | some u => pure u
    | Option.none => .error .keyError
  pvDictGet game.usernameToPlayerId (.str username)

/-- `LogProcessor._handle_command_to_client__set_tile` (source lines
465-480). -/
def handleSetTile (s : PState) (ids : List Nat) (c : PyVal) : Except PyErr PState := do
  let cid ← idsHead ids
  let tileIndex ← pySubscript c (.int 1)
  let x ← pySubscript c (.int 2)
  let y ← pySubscript c (.int 3)
  let (gid, game) ← getGameForClient s cid
  let playerId ← playerIdForClient s game cid
  let tile := PyVal.tuple [x, y]
  let initialRack ← pySubscript game.initialTileRacks playerId
  let initialCell ← pySubscript initialRack tileIndex
  let game2 ←
    if initialCell = .none then do
      let tiles2 ← pySetAdd game.tileRackTiles tile
      let initialRack2 ← pyStore initialRack tileIndex tile
      let initials2 ← pyStore game.initialTileRacks playerId initialRack2
      pure { game with tileRackTiles := tiles2, initialTileRacks := initials2 }
    else do
      let has ← pySetHas game.tileRackTiles tile
      if !has then do
        let tiles2 ← pySetAdd game.tileRackTiles tile
        pure { game with
          tileRackTiles := tiles2
          additionalTileRackTilesOrder := game.additionalTileRackTilesOrder ++ [tile] }
      else pure game
  let rack ← pySubscript game2.tileRacks playerId
  let rack2 ← pyStore rack tileIndex tile
  let racks2 ← pyStore game2.tileRacks playerId rack2
  pure (putGame s gid { game2 with tileRacks := racks2 })

/-- `LogProcessor._handle_command_to_client__remove_tile` (source lines
482-489). -/
def handleRemoveTile (s : PState) (ids : List Nat) (c : PyVal) : Except PyErr PState := do
  let cid ← idsHead ids
  let tileIndex ← pySubscript c (.int 1)
  let (gid, game) ← getGameForClient s cid
  let playerId ← playerIdForClient s game cid
  let rack ← pySubscript game.tileRacks playerId
  let rack2 ← pyStore rack tileIndex .none
  let racks2 ← pyStore game.tileRacks playerId rack2
  pure (putGame s gid { game with tileRacks := racks2 })

/-- `LogProcessor._remove_player_id_from_game` (source lines 504-511). -/
def removePlayerIdFromGame (s : PState) (gameId playerId : PyVal) :
    Except PyErr PState := do
  let gameOpt ← pvDictGetOpt s.gameIdToGame gameId
  match gameOpt with
  | Option.none => pure s
  | some game => do
    let uname ← pvDictGet game.playerIdToUsername playerId
    let cid ←
      match uname with
      | .str u =>
        (match assocFind s.usernameToClientId u with
         | some cid => pure cid
         | Option.none => .error .keyError)
      | v => if pyHashable v then .error .keyError else .error .typeError
    let has ← pvDictHas s.clientIdToGameId (.int cid)
    if has then do
      let m ← pvDictDel s.clientIdToGameId (.int cid)
      pure { s with clientIdToGameId := m }
    else pure s

/-- `LogProcessor._handle_command_to_client__set_game_player_client_id`
(source lines 491-495). -/
def handleSetGamePlayerClientId (s : PState) (ids : List Nat) (c : PyVal) :
    Except PyErr PState := do
  let c3 ← pySubscript c (.int 3)
  if c3 = .none then do
    let c1 ← pySubscript c (.int 1)
    let c2 ← pySubscript c (.int 2)
    removePlayerIdFromGame s c1 c2
  else do
    let c1 ← pySubscript c (.int 1)
    addClientIdToGame s c1 c3

/-- `LogProcessor._handle_command_to_client__set_game_player_join`,
`..._rejoin` (command[1] is the game id, command[3] the client id). -/
def handleGamePlayerJoin (s : PState) (ids : List Nat) (c : PyVal) :
    Except PyErr PState := do
  let c1 ← pySubscript c (.int 1)
  let c3 ← pySubscript c (.int 3)
  addClientIdToGame s c1 c3

/-- `LogProcessor._handle_command_to_client__set_game_player_leave`. -/
def handleGamePlayerLeave (s : PState) (ids : List Nat) (c : PyVal) :
    Except PyErr PState := do
  let c3 ← pySubscript c (.int 3)
  removeClientIdFromGame s c3

/-- `LogProcessor._handle_command_to_client__set_game_watcher_client_id`. -/
def handleGameWatcher (s : PState) (ids : List Nat) (c : PyVal) :
    Except PyErr PState := do
  let c1 ← pySubscript c (.int 1)
  let c2 ← pySubscript c (.int 2)
  addClientIdToGame s c1 c2

/-- `LogProcessor._handle_command_to_client__return_watcher_to_lobby`. -/
def handleReturnWatcher (s : PState) (ids : List Nat) (c : PyVal) :
    Except PyErr PState := do
  let c2 ← pySubscript c (.int 2)
  removeClientIdFromGame s c2

/-- The batch loops of `_handle_command_to_client__add_game_history_message*`
run over every client id; an exception aborts the rest of the loop (and is
caught one level up). -/
def foldClients (f : PState → Nat → Except PyErr PState) (s : PState)
    (ids : List Nat) : Except PyErr PState :=
  ids.foldlM f s

/-- Dispatch of one decoded client command (`self._commands_to_client_handlers
.get(command[0])`, source lines 383-385): the known codes are handled, all
others are inert; an unhashable code raises (caught by the caller). -/
def stepCommandToClientOne (s : PState) (ids : List Nat) (c : PyVal) :
    Except PyErr PState := do
  let v0 ← pySubscript c (.int 0)
  if !pyHashable v0 then .error .typeError
  else
    match v0 with
    | .int n =>
      if n = (setGameBoardCellVal : Int) then handleSetGameBoardCell s ids c
      else if n = (setScoreSheetCellVal : Int) then handleSetScoreSheetCell s ids c
      else if n = (setScoreSheetVal : Int) then handleSetScoreSheet s ids c
      else if n = (setGamePlayerJoinVal : Int) then handleGamePlayerJoin s ids c
      else if n = (setGamePlayerRejoinVal : Int) then handleGamePlayerJoin s ids c
      else if n = (setGamePlayerLeaveVal : Int) then handleGamePlayerLeave s ids c
      else if n = (setGameWatcherClientIdVal : Int) then handleGameWatcher s ids c
      else if n = (returnWatcherToLobbyVal : Int) then handleReturnWatcher s ids c
      else if n = (addGameHistoryMessageVal : Int) then
        foldClients (fun st cid => addGameHistoryMessageOne st cid c) s ids
      else if n = (addGameHistoryMessagesVal : Int) then
        foldClients (fun st cid => addGameHistoryMessagesOne st cid c) s ids
      else if n = (setTileVal : Int) then handleSetTile s ids c
      else if n = (removeTileVal : Int) then handleRemoveTile s ids c
      else if n = (setGamePlayerClientIdVal : Int) then handleSetGamePlayerClientId s ids c
      else pure s
    | _ => pure s

/-- `LogProcessor._handle_command_to_client` (source lines 376-387): each
command of the batch is dispatched inside its own try/except, so a failing
command leaves the state as it was and processing continues with the next
command. -/
def stepCommandToClient (s : PState) (ids : List Nat) (cs : List PyVal) : PState :=
  cs.foldl
    (fun st c =>
      match stepCommandToClientOne st ids c with
      | .ok st2 => st2
      | .error _ => st)
    s

/-- The body of `_handle_command_to_server__do_game_action` (source lines
527-535).  Note the truthiness test on the routed game id. -/
def handleDoGameAction (s : PState) (cid : Nat) (cmd : PyVal) : Except PyErr PState := do
  let gidOpt ← pvDictGetOpt s.clientIdToGameId (.int cid)
  let gid :=
    match gidOpt with
    | some g => g
    | Option.none => PyVal.none
  if pyTruthy gid then do
    let game ← pvDictGet s.gameIdToGame gid
    let username ←
      match natAssocFind s.clientIdToUsername cid with
      | some u => pure u
      | Option.none => .error .keyError
    let pid ← pvDictGetOpt game.usernameToPlayerId (.str username)
    match pid with
    | Option.none => pure s
    | some p => do
      let tail ← pySliceFrom cmd 1
      pure (putGame s gid { game with actions := game.actions ++ [.list [p, tail]] })
  else pure s

/-- `LogProcessor._handle_command_to_server` (source lines 513-525): the
whole dispatch is inside one try/except, so any failure leaves the state
unchanged. -/
def stepCommandToServer (s : PState) (cid : Nat) (cmd : PyVal) : PState :=
  let r : Except PyErr PState := do
    let v0 ← pySubscript cmd (.int 0)
    if !pyHashable v0 then .error .typeError
    else if pyEq v0 (.int doGameActionVal) then handleDoGameAction s cid cmd
    else pure s
  match r with
  | .ok s2 => s2
  | .error _ => s

/-- `LogProcessor._handle_game_expired` (source lines 537-543): not
guarded - an expired line for an untracked game id raises `KeyError`. -/
def handleGameExpired (s : PState) (gid : Nat) : Except PyErr PState := do
  let game ← pvDictGet s.gameIdToGame (.int gid)
  let game2 := { game with expired := true }
  let m ← pvDictDel s.gameIdToGame (.int gid)
  pure { s with gameIdToGame := m, expiredGames := s.expiredGames ++ [game2] }

/-- `tuple(x)` - Python tuple construction from an iterable. -/
def pyTuple (x : PyVal) : Except PyErr PyVal := do
  let xs ← pyIter x
  pure (.tuple xs)

/-- `LogProcessor._handle_log` (source lines 545-583): find or create the
game and apply the entry's fields; not guarded, so a malformed entry
raises out of the processor. -/
def handleLog (logTimestamp : Nat) (s : PState) (entry : PyVal) :
    Except PyErr PState := do
  let hasExternal ← pyContains entry (.str "external-game-id")
  let gid ← if hasExternal then pySubscript entry (.str "external-game-id")
            else pySubscript entry (.str "game-id")
  let internal ← pySubscript entry (.str "game-id")
  let gameOpt ← pvDictGetOpt s.gameIdToGame gid
  let game :=
    match gameOpt with
    | some g => g
    | Option.none => initGame logTimestamp gid internal false
  let tag ← pySubscript entry (.str "_")
  if pyEq tag (.str "game-player") then do
    let playerId ← pySubscript entry (.str "player-id")
    let username ← pySubscript entry (.str "username")
    let p2u ← pvDictPut game.playerIdToUsername playerId username
    let u2p ← pvDictPut game.usernameToPlayerId username playerId
    let joinOrder :=
      if game.playerJoinOrder.any fun x => pyEq username x then game.playerJoinOrder
      else game.playerJoinOrder ++ [username]
    let hist ←
      if !pyHashable username then .error .typeError
      else if (game.usernameToGameHistory.find? fun p => pyEq username p.1).isSome then
        pure game.usernameToGameHistory
      else pure (game.usernameToGameHistory ++ [(username, [])])
    let game2 := { game with
      playerIdToUsername := p2u
      usernameToPlayerId := u2p
      playerJoinOrder := joinOrder
      usernameToGameHistory := hist }
    let m ← pvDictPut s.gameIdToGame gid game2
    pure { s with gameIdToGame := m }
  else do
    let setField (g : Game) (key : String) (put : Game → PyVal → Except PyErr Game) :
        Except PyErr Game := do
      let has ← pyContains entry (.str key)
      if has then do
        let v ← pySubscript entry (.str key)
        put g v
      else pure g
    let g1 ← setField game "state" fun g v => pure { g with state := v }
    let g2 ← setField g1 "mode" fun g v => pure { g with mode := v }
    let g3 ← setField g2 "max-players" fun g v => pure { g with maxPlayers := v }
    let g4 ← setField g3 "tile-bag" fun g v => do
      let xs ← pyIter v
      let ts ← xs.mapM pyTuple
      pure { g with tileBag := .list ts }
    let g5 ← setField g4 "begin" fun g v => pure { g with begin := v }
    let g6 ← setField g5 "end" fun g v => pure { g with endTime := v }
    let g7 ← setField g6 "score" fun g v => pure { g with score := v }
    let g8 ← setField g7 "scores" fun g v => pure { g with score := v }
    let m ← pvDictPut s.gameIdToGame gid g8
    pure { s with gameIdToGame := m }

/-- One queued `_handle_disconnect__delayed` call (source lines 367-374):
delete the client's username mapping (`KeyError` when absent) and rebuild
the inverse map from scratch (a later duplicate username wins, as in the
dict comprehension).  The source's consistency check only prints. -/
def disconnectDelayed (cu : List (Nat × String)) (cid : Nat) :
    Except PyErr (List (Nat × String) × List (String × Nat)) :=
  if (cu.find? fun p => p.1 = cid).isSome then
    let cu2 := cu.filter fun p => p.1 ≠ cid
    .ok (cu2, cu2.foldl (fun acc p => assocPut acc p.2 p.1) [])
  else .error .keyError

/-- `LogProcessor._handle_blank_line` (source lines 585-589) with
verbosity off (the verbose branch only replays and prints): run the queued
delayed calls in order and clear the queue. -/
def flushDelayed (s : PState) : Except PyErr PState := do
  let (cu, uc) ← s.delayedDisconnects.foldlM
    (fun acc cid => disconnectDelayed acc.1 cid)
    (s.clientIdToUsername, s.usernameToClientId)
  pure { s with
    clientIdToUsername := cu
    usernameToClientId := uc
    delayedDisconnects := [] }

/-- `LogProcessor`'s dispatch of one yielded event
(`_line_type_to_handler`, source lines 277-288, and the handlers): an
unmatched line has no handler and is skipped; blank-line, connection-made
and error lines all route to the frame-flush handler.  A line type paired
with another type's payload would be a Python arity error; the parser
never produces one. -/
def stepEvent (logTimestamp : Nat) (s : PState) (e : Event) : Except PyErr PState :=
  match e.lt with
  | Option.none => .ok s
  | some lt =>
    match lt, e.data with
    | .time, some (.time t) => .ok { s with time := some t }
    | .connect, some (.connect cid u) =>
      .ok { s with
        clientIdToUsername := natAssocPut s.clientIdToUsername cid u
        usernameToClientId := assocPut s.usernameToClientId u cid }
    | .disconnect, some (.disconnect cid) =>
      .ok { s with delayedDisconnects := s.delayedDisconnects ++ [cid] }
    | .commandToClient, some (.commandToClient ids cmds) => do
      let cs ← pyIter cmds
      pure (stepCommandToClient s ids cs)
    | .commandToServer, some (.commandToServer cid cmd) =>
      .ok (stepCommandToServer s cid cmd)
    | .gameExpired, some (.gameExpired gid) => handleGameExpired s gid
    | .log, some (.log entry) => handleLog logTimestamp s entry
    | .blankLine, _ => flushDelayed s
    | .connectionMade, _ => flushDelayed s
    | .error, _ => flushDelayed s
    | _, _ => .error .typeError

/-- The event loop of `LogProcessor.go` (source lines 339-352): after each
event the games expired by it are yielded in order; an exception from a
handler aborts the loop with the games yielded so far. -/
def processorLoop (logTimestamp : Nat) (s : PState) :
    List Event → PState × List Game × Option PyErr
  | [] => (s, [], Option.none)
  | e :: rest =>
    match stepEvent logTimestamp s e with
    | .error err => (s, [], some err)
    | .ok s2 =>
      let yielded := s2.expiredGames
      let s3 := { s2 with expiredGames := [] }
      let (s4, gs, err) := processorLoop logTimestamp s3 rest
      (s4, yielded ++ gs, err)

/-- `LogProcessor.go` on a file's lines (source lines 339-355): the games
yielded (expired games as they expire, then every still-open game at end
of stream) and the exception that reached the caller, if any - either one
raised by a handler or one raised by the classifier mid-iteration. -/
def processorGo (logTimestamp : Nat) (decode : String → Option PyVal)
    (lines : List String) : List Game × Option PyErr :=
  let (evs, perr) := logParserGo logTimestamp decode lines
  let (sEnd, gs, herr) := processorLoop logTimestamp initPState evs
  match herr with
  | some e => (gs, some e)
  | Option.none =>
    match perr with
    | some e => (gs, some e)
    | Option.none => (gs ++ sEnd.gameIdToGame.map Prod.snd, Option.none)

/-- The two identity maps the disconnect machinery manages
(`_client_id_to_username`, `_username_to_client_id`) are untouched between
two states. -/
def preservesIdMaps (s s2 : PState) : Prop :=
  s2.clientIdToUsername = s.clientIdToUsername ∧
  s2.usernameToClientId = s.usernameToClientId

/-- Every state a fallible handler can return preserves the two identity
maps of the starting state. -/
def IdOk (s : PState) (r : Except PyErr PState) : Prop :=
  ∀ s2, r = .ok s2 → preservesIdMaps s s2

/-! ## Theorems -/

/-- C10: every newly created reconstructed `Game` starts in the fixed
initial state: a 12-by-9 board of Nothing cells, six score rows
`[0, 0, 0, 0, 0, 0, 0, 60]`, a chain-size row of seven zeros, six tile
racks and six initial tile racks of six empty slots, and empty
played-tiles, additional-tiles, action and per-username history
collections. -/
theorem c10_initial_game_state (ts : Nat) (gid igid : PyVal) (v : Bool) :
    (initGame ts gid igid v).board =
      .list (List.replicate 12 (.list (List.replicate 9 (.int gameBoardTypeNothing)))) ∧
    (initGame ts gid igid v).scoreSheetPlayers =
      .list (List.replicate 6
        (.list [.int 0, .int 0, .int 0, .int 0, .int 0, .int 0, .int 0, .int 60])) ∧
    (initGame ts gid igid v).scoreSheetChainSize = .list (List.replicate 7 (.int 0)) ∧
    (initGame ts gid igid v).tileRacks =
      .list (List.replicate 6 (.list (List.replicate 6 .none))) ∧
    (initGame ts gid igid v).initialTileRacks =
      .list (List.replicate 6 (.list (List.replicate 6 .none))) ∧
    (initGame ts gid igid v).playedTilesOrder = [] ∧
    (initGame ts gid igid v).additionalTileRackTilesOrder = [] ∧
    (initGame ts gid igid v).actions = [] ∧
    (initGame ts gid igid v).usernameToGameHistory = [] :=
  ⟨rfl, rfl, rfl, rfl, rfl, rfl, rfl, rfl, rfl⟩

/-- C9 counterexample: a comparison where the per-player history
structures have different string representations (the simulation produced
one more message than the client observed) is nevertheless judged
synchronized, because the history dimension is compared structurally on
the length-capped prefix and not by `str`; so it is false that each of the
five comparisons judges by string equality. -/
theorem c9_counterexample :
    compareWithServerGame false 1 (.list []) (.list []) (.list []) (.list [])
        (.list []) (.list []) (.list []) Option.none [[]] 1 [(some 0, .int 1)] =
      .ok (true, []) ∧
    pyStr (.list [.list []]) ≠ pyStr (.list [.list [.int 1]]) := by
  constructor
  · decide
  · decide

/-- C9 as amended: the four `_sync_compare` dimensions (board, score
rows, chain sizes, tile racks) judge a dimension synchronized exactly when
the Python string representations are equal - so two structurally equal
sequences of different representations (a list against a tuple of the
same coordinates) are reported desynchronized - while the fifth dimension
(per-player history) is compared structurally on the length-capped
prefix. -/
theorem c9_sync_compare_is_str_equality :
    (∀ (verbose : Bool) (name : String) (a b : PyVal) (ok : Bool) (log : List String),
      syncCompare verbose name a b = .ok (ok, log) → ok = (pyStr a == pyStr b)) ∧
    (sameSeq (.list [.list [.int 1, .int 2]]) (.list [.tuple [.int 1, .int 2]]) = true ∧
      ∃ log, syncCompare false "board" (.list [.list [.int 1, .int 2]])
        (.list [.tuple [.int 1, .int 2]]) = .ok (false, log)) := by
  constructor
  · intro verbose name a b ok log h
    simp only [syncCompare] at h
    by_cases hstr : pyStr a = pyStr b
    · rw [if_neg (by simp [hstr])] at h
      simp only [Except.ok.injEq, Prod.mk.injEq] at h
      rw [← h.1, hstr]
      simp
    · rw [if_pos (by simpa using hstr)] at h
      by_cases hname : name = "tile_racks"
      · rw [if_pos hname] at h
        simp only [bind, Except.bind] at h
        cases h1 : pyLen a with
        | error e => rw [h1] at h; simp at h
        | ok n =>
          rw [h1] at h
          cases h2 : pyIter a with
          | error e => rw [h2] at h; simp at h
          | ok e1 =>
            rw [h2] at h
            cases h3 : pyIter b with
            | error e => rw [h3] at h; simp at h
            | ok e2 =>
              rw [h3] at h
              simp only [Except.ok.injEq, Prod.mk.injEq] at h
              rw [← h.1]
              exact (beq_eq_false_iff_ne.mpr hstr).symm
      · rw [if_neg hname] at h
        simp only [Except.ok.injEq, Prod.mk.injEq] at h
        rw [← h.1]
        exact (beq_eq_false_iff_ne.mpr hstr).symm
  · exact ⟨by decide, ⟨["board diff!", "[[1, 2]]", "[(1, 2)]"], by decide⟩⟩

/-- C9 witness: the characterization applied to a concrete mismatching
pair. -/
theorem c9_witness : (false : Bool) = (pyStr (.int 1) == pyStr (.int 2)) :=
  c9_sync_compare_is_str_equality.1 false "a" (.int 1) (.int 2) false
    ["a diff!", "1", "2"] (by decide)

/-- When every correction entry specifies its tile, the tweak loop never
consults the ambient generator state: the resulting bag and remaining set
are the same for any two incoming states. -/
theorem applyTweaks_state_indep (entries : List (Nat × Option Tile))
    (hall : ∀ e ∈ entries, e.2.isSome) :
    ∀ (bag rem : List Tile) (σ1 σ2 : RngState),
      (applyTweaks entries bag rem σ1).map (fun x => (x.1, x.2.1)) =
      (applyTweaks entries bag rem σ2).map (fun x => (x.1, x.2.1)) := by
  induction entries with
  | nil => intro bag rem σ1 σ2; rfl
  | cons e rest ih =>
    intro bag rem σ1 σ2
    obtain ⟨idx, t?⟩ := e
    have hs : t?.isSome := hall (idx, t?) (List.mem_cons_self _ _)
    obtain ⟨t, rfl⟩ : ∃ t, t? = some t := by
      cases t? with
      | none => simp at hs
      | some t => exact ⟨t, rfl⟩
    have ih2 := ih fun e he => hall e (List.mem_cons_of_mem _ he)
    simp only [applyTweaks]
    by_cases hle : idx ≤ bag.length
    · rw [if_pos hle, if_pos hle]
      by_cases hmem : t ∈ rem
      · rw [if_pos hmem, if_pos hmem]
        exact ih2 _ _ σ1 σ2
      · rw [if_neg hmem, if_neg hmem]
    · rw [if_neg hle, if_neg hle]
      exact ih2 _ _ σ1 σ2

/-- Every entry of the repository's own correction table specifies its
tile. -/
theorem tileBagTweaks_all_some : ∀ p ∈ tileBagTweaks, ∀ e ∈ p.2, e.2.isSome := by
  decide

/-- Entries looked up in the repository's correction table all specify
their tiles. -/
theorem tweaksGet_all_some (ts igid : Nat) (entries : List (Nat × Option Tile))
    (h : tweaksGet tileBagTweaks ts igid = some entries) :
    ∀ e ∈ entries, e.2.isSome := by
  unfold tweaksGet at h
  cases hf : tileBagTweaks.find? fun p => p.1 = (ts, igid) with
  | none => rw [hf] at h; cases h
  | some p =>
    rw [hf] at h
    have hp := List.mem_of_find?_eq_some hf
    injection h with h
    exact h ▸ tileBagTweaks_all_some p hp

/-- C2 as amended: `Game._get_initial_tile_bag` with the repository's own
correction table is a pure function of the game identity, the recorded
tile-bag field and the observed draw history - the ambient random-module
state never influences the result, because every entry of the actual
correction table specifies its inserted tile and the remaining-tile
shuffle runs after the deterministic reseeding.  (An unspecified
correction entry would instead draw from the ambient state before
seeding, which claim C2's counterexample shows to be irreproducible.) -/
theorem c2_actual_inferencer_deterministic (ts igid : Nat)
    (tileBagField : Option (List Tile)) (histories : List (List HistMsg))
    (σ1 σ2 : RngState) :
    getInitialTileBag ts igid tileBagField histories σ1 =
    getInitialTileBag ts igid tileBagField histories σ2 := by
  have key : inferTileBagWith ts igid histories tileBagTweaks σ1 =
      inferTileBagWith ts igid histories tileBagTweaks σ2 := by
    unfold inferTileBagWith
    cases htw : tweaksGet tileBagTweaks ts igid with
    | none => simp [htw]
    | some entries =>
      simp only [htw]
      have hmap := applyTweaks_state_indep entries
        (tweaksGet_all_some ts igid entries htw)
        (observedTileBag histories)
        (allTiles.filter fun t => t ∉ observedTileBag histories) σ1 σ2
      cases h1 : applyTweaks entries (observedTileBag histories)
          (allTiles.filter fun t => t ∉ observedTileBag histories) σ1 with
      | none =>
        cases h2 : applyTweaks entries (observedTileBag histories)
            (allTiles.filter fun t => t ∉ observedTileBag histories) σ2 with
        | none => simp
        | some out2 => rw [h1, h2] at hmap; cases hmap
      | some out1 =>
        cases h2 : applyTweaks entries (observedTileBag histories)
            (allTiles.filter fun t => t ∉ observedTileBag histories) σ2 with
        | none => rw [h1, h2] at hmap; cases hmap
        | some out2 =>
          rw [h1, h2] at hmap
          simp only [Option.map_some', Option.some.injEq, Prod.mk.injEq] at hmap
          simp [hmap.1, hmap.2]
  unfold getInitialTileBag getInitialTileBagWith
  cases tileBagField with
  | none => exact key
  | some l =>
    by_cases hl : l ≠ []
    · simp [hl]
    · simp [hl, key]

/-- C2 counterexample: the claim as stated is false - with a correction
table whose entry leaves the inserted tile unspecified, two runs on the
same game identity, draw history and correction table but different
ambient random-module states (the state `random.sample` reads before the
seeded shuffle) produce different bags. -/
theorem c2_counterexample :
    getInitialTileBagWith 5 7 Option.none [] [((5, 7), [(0, Option.none)])] 0 ≠
    getInitialTileBagWith 5 7 Option.none [] [((5, 7), [(0, Option.none)])] 1 := by
  decide

/-- The tiles of the drew/replaced messages of one history, in order. -/
def drawnTiles (h : List HistMsg) : List Tile :=
  h.filterMap fun m =>
    if drewOrReplacedTileMessageIds.contains m.msgId then some (m.x, m.y)
    else Option.none

theorem mem_allTiles (t : Tile) : t ∈ allTiles ↔ t.1 < 12 ∧ t.2 < 9 := by
  obtain ⟨x, y⟩ := t
  simp only [allTiles, List.mem_flatMap, List.mem_map, List.mem_range]
  constructor
  · rintro ⟨a, ha, b, hb, h⟩
    obtain ⟨rfl, rfl⟩ := Prod.mk.injEq .. ▸ h
    exact ⟨ha, hb⟩
  · rintro ⟨hx, hy⟩
    exact ⟨x, hx, y, hy, rfl⟩

theorem allTiles_nodup : allTiles.Nodup := by decide

theorem appendNewTiles_cons (bag : List Tile) (t : Tile) (ts : List Tile) :
    appendNewTiles bag (t :: ts) =
    appendNewTiles (if t ∈ bag then bag else bag ++ [t]) ts := rfl

theorem mem_appendNewTiles (ts : List Tile) :
    ∀ (bag : List Tile) (x : Tile), x ∈ appendNewTiles bag ts ↔ x ∈ bag ∨ x ∈ ts := by
  induction ts with
  | nil => intro bag x; simp [appendNewTiles]
  | cons t rest ih =>
    intro bag x
    rw [appendNewTiles_cons, ih]
    by_cases htb : t ∈ bag
    · simp only [if_pos htb, List.mem_cons]
      constructor
      · rintro (hx | hx)
        · exact Or.inl hx
        · exact Or.inr (Or.inr hx)
      · rintro (hx | rfl | hx)
        · exact Or.inl hx
        · exact Or.inl htb
        · exact Or.inr hx
    · simp only [if_neg htb, List.mem_append, List.mem_singleton, List.mem_cons]
      tauto

theorem appendNewTiles_nodup (ts : List Tile) :
    ∀ bag : List Tile, bag.Nodup → (appendNewTiles bag ts).Nodup := by
  induction ts with
  | nil => intro bag h; exact h
  | cons t rest ih =>
    intro bag h
    rw [appendNewTiles_cons]
    by_cases htb : t ∈ bag
    · rw [if_pos htb]; exact ih bag h
    · rw [if_neg htb]
      refine ih _ (List.Nodup.append h (List.nodup_singleton t) ?_)
      intro a ha
      simp only [List.mem_singleton]
      rintro rfl
      exact htb ha

theorem turnListsAux_sub (h : List HistMsg) :
    ∀ (cur : List Tile) (l : List Tile), l ∈ turnListsAux h cur →
      ∀ t ∈ l, t ∈ cur ∨ t ∈ drawnTiles h := by
  induction h with
  | nil =>
    intro cur l hl t ht
    simp only [turnListsAux, List.mem_singleton] at hl
    exact Or.inl (hl ▸ ht)
  | cons m rest ih =>
    intro cur l hl t ht
    by_cases hdrew : drewOrReplacedTileMessageIds.contains m.msgId
    · rw [turnListsAux, if_pos hdrew] at hl
      rcases ih _ _ hl t ht with hc | hd
      · rcases List.mem_append.1 hc with hc | hc
        · exact Or.inl hc
        · refine Or.inr ?_
          simp only [drawnTiles, List.filterMap_cons, if_pos hdrew]
          exact (List.mem_singleton.1 hc) ▸ List.mem_cons_self _ _
      · refine Or.inr ?_
        simp only [drawnTiles, List.filterMap_cons, if_pos hdrew]
        exact List.mem_cons_of_mem _ hd
    · rw [turnListsAux, if_neg hdrew] at hl
      have hdr : drawnTiles (m :: rest) = drawnTiles rest := by
        simp only [drawnTiles, List.filterMap_cons, if_neg hdrew]
      by_cases hturn : m.msgId = turnBeganId
      · rw [if_pos hturn] at hl
        rcases List.mem_cons.1 hl with rfl | hl
        · exact Or.inl ht
        · rcases ih _ _ hl t ht with hc | hd
          · cases hc
          · exact Or.inr (hdr ▸ hd)
      · rw [if_neg hturn] at hl
        rcases ih _ _ hl t ht with hc | hd
        · exact Or.inl hc
        · exact Or.inr (hdr ▸ hd)

theorem mem_insertLenDesc (x : List Tile) (xs : List (List Tile)) :
    ∀ y, y ∈ insertLenDesc x xs → y = x ∨ y ∈ xs := by
  induction xs with
  | nil => intro y hy; simp [insertLenDesc] at hy; exact Or.inl hy
  | cons z zs ih =>
    intro y hy
    rw [insertLenDesc] at hy
    by_cases hc : z.length ≤ x.length
    · rw [if_pos hc] at hy
      rcases List.mem_cons.1 hy with rfl | hy
      · exact Or.inl rfl
      · exact Or.inr hy
    · rw [if_neg hc] at hy
      rcases List.mem_cons.1 hy with rfl | hy
      · exact Or.inr (List.mem_cons_self _ _)
      · rcases ih y hy with h | h
        · exact Or.inl h
        · exact Or.inr (List.mem_cons_of_mem _ h)

theorem mem_sortLenDesc (xs : List (List Tile)) :
    ∀ y, y ∈ sortLenDesc xs → y ∈ xs := by
  induction xs with
  | nil => intro y hy; cases hy
  | cons z zs ih =>
    intro y hy
    rcases mem_insertLenDesc z (sortLenDesc zs) y hy with rfl | hy
    · exact List.mem_cons_self _ _
    · exact List.mem_cons_of_mem _ (ih y hy)

theorem foldl_appendNewTiles_inv (P : Tile → Prop) (ls : List (List Tile)) :
    ∀ bag : List Tile, bag.Nodup → (∀ x ∈ bag, P x) →
      (∀ l ∈ ls, ∀ x ∈ l, P x) →
      (ls.foldl appendNewTiles bag).Nodup ∧ ∀ x ∈ ls.foldl appendNewTiles bag, P x := by
  induction ls with
  | nil => intro bag h1 h2 _; exact ⟨h1, h2⟩
  | cons l rest ih =>
    intro bag h1 h2 h3
    simp only [List.foldl_cons]
    refine ih _ (appendNewTiles_nodup l bag h1) ?_ ?_
    · intro x hx
      rcases (mem_appendNewTiles l bag x).1 hx with hx | hx
      · exact h2 x hx
      · exact h3 l (List.mem_cons_self _ _) x hx
    · intro l2 hl2 x hx
      exact h3 l2 (List.mem_cons_of_mem _ hl2) x hx

theorem observedTileBag_spec (histories : List (List HistMsg)) :
    (observedTileBag histories).Nodup ∧
      ∀ t ∈ observedTileBag histories, ∃ h ∈ histories, t ∈ drawnTiles h := by
  unfold observedTileBag
  set players := histories.map turnLists with hplayers
  set cols := (List.range (listMax (players.map List.length))).map fun t =>
    players.filterMap fun p => p.get? t with hcols
  have key : ∀ (cs : List (List (List Tile))) (bag : List Tile),
      bag.Nodup → (∀ x ∈ bag, ∃ h ∈ histories, x ∈ drawnTiles h) →
      (∀ col ∈ cs, ∀ l ∈ col, ∀ x ∈ l, ∃ h ∈ histories, x ∈ drawnTiles h) →
      (cs.foldl (fun bag col =>
          (sortLenDesc (col.filter fun p => p ≠ [])).foldl appendNewTiles bag) bag).Nodup ∧
        ∀ x ∈ cs.foldl (fun bag col =>
          (sortLenDesc (col.filter fun p => p ≠ [])).foldl appendNewTiles bag) bag,
          ∃ h ∈ histories, x ∈ drawnTiles h := by
    intro cs
    induction cs with
    | nil => intro bag h1 h2 _; exact ⟨h1, h2⟩
    | cons col rest ih =>
      intro bag h1 h2 h3
      simp only [List.foldl_cons]
      have step := foldl_appendNewTiles_inv (fun x => ∃ h ∈ histories, x ∈ drawnTiles h)
        (sortLenDesc (col.filter fun p => p ≠ [])) bag h1 h2 ?_
      · exact ih _ step.1 step.2 fun c hc => h3 c (List.mem_cons_of_mem _ hc)
      · intro l hl x hx
        have hlcol : l ∈ col := List.mem_of_mem_filter (mem_sortLenDesc _ l hl)
        exact h3 col (List.mem_cons_self _ _) l hlcol x hx
  refine key cols [] List.nodup_nil (by simp) ?_
  intro col hcol l hl x hx
  rw [hcols] at hcol
  obtain ⟨i, _, rfl⟩ := List.mem_map.1 hcol
  obtain ⟨p, hp, hpl⟩ := List.mem_filterMap.1 hl
  have hlp : l ∈ p := List.get?_mem hpl
  rw [hplayers] at hp
  obtain ⟨hist, hhist, rfl⟩ := List.mem_map.1 hp
  rcases turnListsAux_sub hist [] l hlp x hx with hc | hd
  · cases hc
  · exact ⟨hist, hhist, hd⟩

theorem drawnTiles_valid (histories : List (List HistMsg))
    (hval : validHistories histories = true) :
    ∀ h ∈ histories, ∀ t ∈ drawnTiles h, t ∈ allTiles := by
  intro h hh t ht
  obtain ⟨m, hm, hmt⟩ := List.mem_filterMap.1 ht
  by_cases hdrew : drewOrReplacedTileMessageIds.contains m.msgId
  · rw [if_pos hdrew] at hmt
    injection hmt with hmt
    have := (List.all_eq_true.1 (List.all_eq_true.1 hval h hh) m hm)
    rw [hdrew] at this
    simp only [Bool.not_true, Bool.false_or, Bool.and_eq_true, decide_eq_true_eq] at this
    rw [mem_allTiles, ← hmt]
    exact this
  · rw [if_neg hdrew] at hmt
    cases hmt

theorem perm_bag_filter (bag : List Tile) (h1 : bag.Nodup)
    (h2 : ∀ t ∈ bag, t ∈ allTiles) :
    (bag ++ allTiles.filter fun t => t ∉ bag).Perm allTiles := by
  have hnd : (bag ++ allTiles.filter fun t => t ∉ bag).Nodup := by
    refine List.Nodup.append h1 (allTiles_nodup.filter _) ?_
    intro a ha hafil
    have := List.of_mem_filter hafil
    simp only [decide_eq_true_eq] at this
    exact this ha
  refine (List.perm_ext_iff_of_nodup hnd allTiles_nodup).2 ?_
  intro a
  simp only [List.mem_append, List.mem_filter, decide_eq_true_eq]
  constructor
  · rintro (ha | ⟨ha, _⟩)
    · exact h2 a ha
    · exact ha
  · intro ha
    by_cases hab : a ∈ bag
    · exact Or.inl hab
    · exact Or.inr ⟨ha, hab⟩

theorem randomSample_mem (σ : RngState) (xs : List Tile) (t : Tile) (σ2 : RngState)
    (h : randomSample σ xs = some (t, σ2)) : t ∈ xs := by
  cases xs with
  | nil => cases h
  | cons a rest =>
    simp only [randomSample, Option.some.injEq, Prod.mk.injEq] at h
    have hlt : σ % (a :: rest).length < (a :: rest).length :=
      Nat.mod_lt _ (by simp)
    rw [← h.1, List.getD_eq_getElem _ _ hlt]
    exact List.getElem_mem hlt

theorem randomShuffle_perm (σ : RngState) (xs : List Tile) :
    (randomShuffle σ xs).Perm xs := by
  unfold randomShuffle
  refine List.perm_append_comm.trans ?_
  rw [List.take_append_drop]

theorem tileBEq_eq : (instBEqProd : BEq Tile) = instBEqOfDecidableEq := by
  have hbe : ∀ a b : Tile,
      (@BEq.beq Tile instBEqProd a b) = (@BEq.beq Tile instBEqOfDecidableEq a b) := by
    intro a b
    obtain ⟨a1, a2⟩ := a; obtain ⟨b1, b2⟩ := b
    simp [Bool.eq_iff_iff, Prod.ext_iff, instBEqProd, instBEqOfDecidableEq]
  exact congrArg BEq.mk (funext fun a => funext fun b => hbe a b)

theorem applyTweaks_perm (entries : List (Nat × Option Tile)) :
    ∀ (bag rem : List Tile) (σ : RngState) (bag2 rem2 : List Tile) (σ2 : RngState),
      applyTweaks entries bag rem σ = some (bag2, rem2, σ2) →
      (bag2 ++ rem2).Perm (bag ++ rem) := by
  induction entries with
  | nil =>
    intro bag rem σ bag2 rem2 σ2 h
    simp only [applyTweaks, Option.some.injEq, Prod.mk.injEq] at h
    rw [← h.1, ← h.2.1]
  | cons e rest ih =>
    intro bag rem σ bag2 rem2 σ2 h
    obtain ⟨idx, t?⟩ := e
    simp only [applyTweaks] at h
    by_cases hle : idx ≤ bag.length
    · rw [if_pos hle] at h
      have stepPerm : ∀ t : Tile, t ∈ rem →
          (bag.insertIdx idx t ++ rem.erase t).Perm (bag ++ rem) := by
        intro t hmem
        have s2 : (bag.insertIdx idx t ++ rem.erase t).Perm ((t :: bag) ++ rem.erase t) :=
          (List.perm_insertIdx t bag hle).append_right _
        have s4 : (t :: (bag ++ rem.erase t)).Perm (bag ++ t :: rem.erase t) :=
          List.perm_middle.symm
        have s5 : (bag ++ t :: rem.erase t).Perm (bag ++ rem) := by
          rw [tileBEq_eq]
          exact List.Perm.append_left bag (List.perm_cons_erase hmem).symm
        exact s2.trans (s4.trans s5)
      cases t? with
      | some t =>
        have h2 : (if t ∈ rem then
            applyTweaks rest (bag.insertIdx idx t) (rem.erase t) σ
          else Option.none) = some (bag2, rem2, σ2) := h
        by_cases hmem : t ∈ rem
        · rw [if_pos hmem] at h2
          exact (ih _ _ _ _ _ _ h2).trans (stepPerm t hmem)
        · rw [if_neg hmem] at h2; cases h2
      | none =>
        cases hs : randomSample σ rem with
        | none =>
          rw [hs] at h
          have h2 : (Option.none : Option (List Tile × List Tile × RngState))
              = some (bag2, rem2, σ2) := h
          cases h2
        | some p =>
          obtain ⟨t, σ3⟩ := p
          rw [hs] at h
          have h2 : applyTweaks rest (bag.insertIdx idx t) (rem.erase t) σ3
              = some (bag2, rem2, σ2) := h
          exact (ih _ _ _ _ _ _ h2).trans (stepPerm t (randomSample_mem σ rem t σ3 hs))
    · rw [if_neg hle] at h
      exact ih _ _ _ _ _ _ h

theorem inferTileBagWith_perm (ts igid : Nat) (histories : List (List HistMsg))
    (tweaks : List ((Nat × Nat) × List (Nat × Option Tile))) (σ : RngState)
    (bag : List Tile) (hval : validHistories histories = true)
    (h : inferTileBagWith ts igid histories tweaks σ = some bag) :
    bag.Perm allTiles := by
  obtain ⟨hnd, hsub0⟩ := observedTileBag_spec histories
  have hsub : ∀ t ∈ observedTileBag histories, t ∈ allTiles := by
    intro t ht
    obtain ⟨hh, hhh, htd⟩ := hsub0 t ht
    exact drawnTiles_valid histories hval hh hhh t htd
  have hbase : (observedTileBag histories ++
      allTiles.filter fun t => t ∉ observedTileBag histories).Perm allTiles :=
    perm_bag_filter _ hnd hsub
  cases htw : tweaksGet tweaks ts igid with
  | none =>
    simp only [inferTileBagWith, htw] at h
    simp only [Option.some.injEq] at h
    rw [← h]
    refine List.reverse_perm _ |>.trans ?_
    exact (List.Perm.append_left _ (randomShuffle_perm _ _)).trans hbase
  | some entries =>
    simp only [inferTileBagWith, htw] at h
    cases happ : applyTweaks entries (observedTileBag histories)
        (allTiles.filter fun t => t ∉ observedTileBag histories) σ with
    | none => rw [happ] at h; cases h
    | some out =>
      obtain ⟨b, r, σ2⟩ := out
      rw [happ] at h
      simp only [Option.some.injEq] at h
      rw [← h]
      refine List.reverse_perm _ |>.trans ?_
      refine (List.Perm.append_left _ (randomShuffle_perm _ _)).trans ?_
      exact (applyTweaks_perm entries _ _ _ _ _ _ happ).trans hbase

/-- C1: whenever the game log carries no authoritative tile-bag field and
the per-player draw history is valid (every drew/replaced message carries
an in-range board coordinate), the bag the inferencer returns is a
permutation of exactly the 108 board coordinates - no duplicates, no
omissions. -/
theorem c1_inferred_bag_is_permutation (ts igid : Nat)
    (histories : List (List HistMsg)) (σ : RngState) (bag : List Tile)
    (hval : validHistories histories = true)
    (h : getInitialTileBag ts igid Option.none histories σ = some bag) :
    bag.Perm allTiles :=
  inferTileBagWith_perm ts igid histories tileBagTweaks σ bag hval h

/-- C1 witness: the inferencer applied to the empty draw history. -/
theorem c1_witness :
    ∃ bag, getInitialTileBag 0 0 Option.none [] 0 = some bag ∧ bag.Perm allTiles := by
  have hs : (getInitialTileBag 0 0 Option.none [] 0).isSome = true := by decide
  exact ⟨_, (Option.some_get hs).symm,
    c1_inferred_bag_is_permutation 0 0 [] 0 _ (by decide) (Option.some_get hs).symm⟩

/-- Closed form of `Enums.get_translations`: the two recorded changes are
disjoint in family, so the newest-first `dict.update` composition yields
one entry per family whose change timestamp is at or after the query. -/
theorem getTranslations_eq (t : Nat) :
    getTranslations t =
      if t ≤ 1409233190 then
        [("CommandsToClient", ctcTranslation), ("Errors", errTranslation)]
      else if t ≤ 1417176502 then [("CommandsToClient", ctcTranslation)]
      else [] := by
  have hsort : sortKeyDesc enumsTranslationsTable =
      [(1417176502, [("CommandsToClient", ctcTranslation)]),
       (1409233190, [("Errors", errTranslation)])] := rfl
  unfold getTranslations
  rw [hsort]
  by_cases h1 : t ≤ 1409233190
  · have h2 : t ≤ 1417176502 := le_trans h1 (by norm_num)
    rw [if_pos h1]
    simp only [List.foldl, if_pos h1, if_pos h2]
    rfl
  · rw [if_neg h1]
    by_cases h2 : t ≤ 1417176502
    · rw [if_pos h2]
      simp only [List.foldl, if_pos h2, if_neg h1]
      rfl
    · rw [if_neg h2]
      simp only [List.foldl, if_neg h1, if_neg h2]

/-- C5: `Enums.get_translations(t)` maps exactly the enum families having
a recorded historical change with key timestamp at or after `t` (the
`CommandsToClient` change at 1417176502 and the `Errors` change at
1409233190), each to the newest-first composition of its snapshots (each
family has one snapshot, so the composition is that snapshot's
old-index-to-new-index map); and for a timestamp later than every
recorded change the mapping is empty and
`CommandsToClientTranslator.translate` returns every batch - of any
shape - unchanged. -/
theorem c5_translations (t : Nat) :
    (getTranslations t =
      if t ≤ 1409233190 then
        [("CommandsToClient", ctcTranslation), ("Errors", errTranslation)]
      else if t ≤ 1417176502 then [("CommandsToClient", ctcTranslation)]
      else [])
    ∧ ((getTranslations t).map Prod.fst =
        (if t ≤ 1417176502 then ["CommandsToClient"] else []) ++
        (if t ≤ 1409233190 then ["Errors"] else []))
    ∧ ((∀ ch ∈ lookupsChanges, ch.1 < t) →
        getTranslations t = [] ∧
        ∀ commands, translatorTranslate (mkTranslator (getTranslations t))
          commands = .ok commands) := by
  have hcf := getTranslations_eq t
  refine ⟨hcf, ?_, ?_⟩
  · rw [hcf]
    by_cases h1 : t ≤ 1409233190
    · have h2 : t ≤ 1417176502 := le_trans h1 (by norm_num)
      rw [if_pos h1, if_pos h2, if_pos h1]; rfl
    · rw [if_neg h1]
      by_cases h2 : t ≤ 1417176502
      · rw [if_pos h2, if_pos h2, if_neg h1]; rfl
      · rw [if_neg h2, if_neg h2, if_neg h1]; rfl
  · intro hall
    have ha : (1417176502 : Nat) < t := by
      have := hall (1417176502, [("CommandsToClient",
        ["FatalError", "SetClientId", "SetClientIdToData", "SetGameState",
         "SetGameBoardCell", "SetGameBoard", "SetScoreSheetCell",
         "SetScoreSheet", "SetGamePlayerUsername", "SetGamePlayerClientId",
         "SetGameWatcherClientId", "ReturnWatcherToLobby",
         "AddGameHistoryMessage", "AddGameHistoryMessages", "SetTurn",
         "SetGameAction", "SetTile", "SetTileGameBoardType", "RemoveTile",
         "AddGlobalChatMessage", "AddGameChatMessage", "DestroyGame"])])
        (by simp [lookupsChanges])
      exact this
    have hb : (1409233190 : Nat) < t := lt_trans (by norm_num) ha
    have hempty : getTranslations t = [] := by
      rw [hcf, if_neg (not_le.mpr hb), if_neg (not_le.mpr ha)]
    refine ⟨hempty, fun commands => ?_⟩
    rw [hempty]
    rfl

/-- C5 witness: one timestamp past both recorded changes. -/
theorem c5_witness :
    getTranslations 1417176503 = [] ∧
    translatorTranslate (mkTranslator (getTranslations 1417176503))
      (.list [.list [.int 4, .str "A1"]]) =
      .ok (.list [.list [.int 4, .str "A1"]]) := by
  obtain ⟨-, -, hid⟩ := c5_translations 1417176503
  have h := hid (by decide)
  exact ⟨h.1, h.2 _⟩

theorem histStep_take (acc : Bool × List String) (p q : Nat × List PyVal × List PyVal)
    (h1 : p.1 = q.1) (h2 : p.2.1 = q.2.1)
    (h3 : p.2.2.take p.2.1.length = q.2.2.take q.2.1.length) :
    histStep acc p = histStep acc q := by
  rw [h2] at h3
  simp only [histStep]
  rw [h1, h2, h3]

theorem foldl_histStep_congr :
    ∀ {xs ys : List (Nat × List PyVal × List PyVal)},
    List.Forall₂ (fun p q => p.1 = q.1 ∧ p.2.1 = q.2.1 ∧
      p.2.2.take p.2.1.length = q.2.2.take q.2.1.length) xs ys →
    ∀ acc : Bool × List String, xs.foldl histStep acc = ys.foldl histStep acc := by
  intro xs ys hf
  induction hf with
  | nil => intro acc; rfl
  | cons hR hrest ih =>
    intro acc
    rename_i p q xs2 ys2
    simp only [List.foldl_cons]
    rw [histStep_take acc p q hR.1 hR.2.1 hR.2.2]
    exact ih _

theorem buildServerHistories_aux :
    ∀ (msgs : List (Option Nat × PyVal)) (acc hists : List (List PyVal)),
    msgs.foldlM serverHistStep acc = .ok hists →
    hists.length = acc.length ∧
    ∀ i, i < acc.length → hists.getD i [] =
      acc.getD i [] ++ msgs.filterMap fun p =>
        match p.1 with
        | Option.none => some p.2
        | some j => if j = i then some p.2 else Option.none := by
  intro msgs
  induction msgs with
  | nil =>
    intro acc hists h
    have h2 : (Except.ok acc : Except PyErr (List (List PyVal))) = .ok hists := h
    cases h2
    exact ⟨rfl, fun i hi => by simp⟩
  | cons p rest ih =>
    intro acc hists h
    simp only [List.foldlM_cons] at h
    cases hp : p.1 with
    | none =>
      simp only [serverHistStep, hp] at h
      have h2 : rest.foldlM serverHistStep (acc.map fun gh => gh ++ [p.2]) = .ok hists := h
      obtain ⟨hlen, hget⟩ := ih _ _ h2
      refine ⟨by simpa using hlen, fun i hi => ?_⟩
      have hi2 : i < (acc.map fun gh => gh ++ [p.2]).length := by simpa using hi
      have hmap : (acc.map fun gh => gh ++ [p.2]).getD i [] = acc.getD i [] ++ [p.2] := by
        rw [List.getD_eq_getElem _ _ hi2, List.getD_eq_getElem _ _ hi, List.getElem_map]
      rw [hget i hi2, hmap, List.filterMap_cons]
      simp only [hp, List.append_assoc, List.singleton_append]
    | some pid =>
      simp only [serverHistStep, hp] at h
      by_cases hlt : pid < acc.length
      · rw [if_pos hlt] at h
        have h2 : rest.foldlM serverHistStep
            (acc.set pid (acc.getD pid [] ++ [p.2])) = .ok hists := h
        obtain ⟨hlen, hget⟩ := ih _ _ h2
        refine ⟨by simpa using hlen, fun i hi => ?_⟩
        have hi2 : i < (acc.set pid (acc.getD pid [] ++ [p.2])).length := by simpa using hi
        have hset : (acc.set pid (acc.getD pid [] ++ [p.2])).getD i [] =
            if pid = i then acc.getD pid [] ++ [p.2] else acc.getD i [] := by
          rw [List.getD_eq_getElem _ _ hi2, List.getElem_set]
          by_cases hpi : pid = i
          · rw [if_pos hpi, if_pos hpi]
          · rw [if_neg hpi, if_neg hpi, List.getD_eq_getElem _ _ hi]
        rw [hget i hi2, hset, List.filterMap_cons]
        simp only [hp]
        by_cases hpi : pid = i
        · rw [if_pos hpi, if_pos hpi, hpi]
          simp [List.append_assoc]
        · rw [if_neg hpi, if_neg hpi]
      · rw [if_neg hlt] at h
        have h2 : (Except.error PyErr.indexError : Except PyErr (List (List PyVal)))
            = .ok hists := h
        cases h2

/-- C7: the history comparison of `compare_with_server_game` (1) depends
on the simulation's per-player histories only through the prefix of each
whose length equals the observed history's length, so extra trailing
simulation messages never change the verdict or the log; and (2) the
per-player simulation histories it compares against are built so that a
history message addressed to no specific player is delivered to every
player, a targeted message only to its target, in message order. -/
theorem c7_history_prefix_and_broadcast :
    (∀ (localHists serverHists serverHists2 : List (List PyVal)),
      serverHists2.length = serverHists.length →
      (∀ i, i < serverHists.length →
        (serverHists2.getD i []).take (localHists.getD i []).length =
        (serverHists.getD i []).take (localHists.getD i []).length) →
      historyDiffs localHists serverHists2 = historyDiffs localHists serverHists)
    ∧ (∀ (n : Nat) (msgs : List (Option Nat × PyVal)) (hists : List (List PyVal)),
      buildServerHistories n msgs = .ok hists →
      hists.length = n ∧
      ∀ i, i < n → hists.getD i [] =
        msgs.filterMap fun p =>
          match p.1 with
          | Option.none => some p.2
          | some j => if j = i then some p.2 else Option.none) := by
  constructor
  · intro localHists serverHists serverHists2 hlen htake
    unfold historyDiffs
    rw [hlen]
    refine foldl_histStep_congr ?_ (true, [])
    rw [List.forall₂_map_left_iff, List.forall₂_map_right_iff, List.forall₂_same]
    intro i hi
    refine ⟨rfl, rfl, ?_⟩
    have hilt : i < serverHists.length :=
      lt_of_lt_of_le (List.mem_range.mp hi) (min_le_right _ _)
    exact htake i hilt
  · intro n msgs hists h
    obtain ⟨hlen, hget⟩ := buildServerHistories_aux msgs _ hists h
    refine ⟨by simpa using hlen, fun i hi => ?_⟩
    have hi2 : i < (List.replicate n ([] : List PyVal)).length := by simpa using hi
    have hrep : (List.replicate n ([] : List PyVal)).getD i [] = [] := by
      rw [List.getD_eq_getElem _ _ hi2, List.getElem_replicate]
    rw [hget i hi2, hrep, List.nil_append]

/-- C7 witness: a one-player comparison where the simulation history has
two extra trailing messages, and a two-player build with one broadcast
and one targeted message. -/
theorem c7_witness :
    (historyDiffs [[PyVal.int 1]] [[PyVal.int 1, PyVal.int 2, PyVal.int 3]] =
      historyDiffs [[PyVal.int 1]] [[PyVal.int 1]])
    ∧ ([[PyVal.int 5, PyVal.int 6], [PyVal.int 5]] : List (List PyVal)).length = 2 := by
  refine ⟨c7_history_prefix_and_broadcast.1 [[PyVal.int 1]] [[PyVal.int 1]]
    [[PyVal.int 1, PyVal.int 2, PyVal.int 3]] (by decide) (by decide), ?_⟩
  exact (c7_history_prefix_and_broadcast.2 2
    [(Option.none, PyVal.int 5), (some 0, PyVal.int 6)]
    [[PyVal.int 5, PyVal.int 6], [PyVal.int 5]] (by decide)).1

theorem pyEq_int_iff (v : PyVal) (m : Int) : pyEq v (.int m) = true ↔ v = .int m := by
  cases v <;> simp [pyEq]

theorem collectCmdIdxs_subOk :
    ∀ (elems : List PyVal) (i : Nat) (r : List Nat × List Nat),
    collectCmdIdxs i elems = .ok r →
    ∀ c ∈ elems, ∃ v, pySubscript c (.int 0) = .ok v ∧ pyHashable v = true := by
  intro elems
  induction elems with
  | nil => intro i r h c hc; cases hc
  | cons c0 rest ih =>
    intro i r h c hc
    cases hsub : pySubscript c0 (.int 0) with
    | error e =>
      simp only [collectCmdIdxs, hsub, bind, Except.bind] at h
      simp at h
    | ok v0 =>
      simp only [collectCmdIdxs, hsub, bind, Except.bind] at h
      by_cases h1 : pyEq v0 (.int (setGameBoardCellVal : Int)) = true
      · rw [if_pos h1] at h
        have hv0 : v0 = .int (setGameBoardCellVal : Int) := (pyEq_int_iff v0 _).mp h1
        cases hcol : collectCmdIdxs (i + 1) rest with
        | error e => rw [hcol] at h; simp at h
        | ok r0 =>
          rcases List.mem_cons.mp hc with hc2 | hc2
          · exact hc2 ▸ ⟨v0, hsub, by rw [hv0]; rfl⟩
          · exact ih (i + 1) r0 hcol c hc2
      · rw [if_neg h1] at h
        by_cases hh : (!pyHashable v0) = true
        · rw [if_pos hh] at h
          simp at h
        · rw [if_neg hh] at h
          have hhash : pyHashable v0 = true := by
            cases hv : pyHashable v0
            · rw [hv] at hh; simp at hh
            · rfl
          rcases List.mem_cons.mp hc with hc2 | hc2
          · exact hc2 ▸ ⟨v0, hsub, hhash⟩
          · by_cases h2 : (setGamePlayerIdxs.any fun n => pyEq v0 (.int (n : Int))) = true
            · rw [if_pos h2] at h
              cases hcol : collectCmdIdxs (i + 1) rest with
              | error e => rw [hcol] at h; simp at h
              | ok r0 => exact ih (i + 1) r0 hcol c hc2
            · rw [if_neg h2] at h
              cases hcol : collectCmdIdxs (i + 1) rest with
              | error e => rw [hcol] at h; simp at h
              | ok r0 => exact ih (i + 1) r0 hcol c hc2

theorem collectCmdIdxs_ok_of_subOk :
    ∀ (elems : List PyVal),
    (∀ c ∈ elems, ∃ v, pySubscript c (.int 0) = .ok v ∧ pyHashable v = true) →
    ∀ i, ∃ r, collectCmdIdxs i elems = .ok r := by
  intro elems
  induction elems with
  | nil => exact fun _ i => ⟨([], []), rfl⟩
  | cons c0 rest ih =>
    intro hall i
    obtain ⟨v0, hv0, hhash⟩ := hall c0 (List.mem_cons_self _ _)
    obtain ⟨⟨bs0, ps0⟩, hr0⟩ := ih (fun c hc => hall c (List.mem_cons_of_mem _ hc)) (i + 1)
    by_cases h1 : pyEq v0 (.int (setGameBoardCellVal : Int)) = true
    · refine ⟨(i :: bs0, ps0), ?_⟩
      simp [collectCmdIdxs, hv0, hr0, bind, Except.bind, h1]
      rfl
    · by_cases h2 : (setGamePlayerIdxs.any fun n => pyEq v0 (.int (n : Int))) = true
      · refine ⟨(bs0, i :: ps0), ?_⟩
        simp [collectCmdIdxs, hv0, hr0, bind, Except.bind, h1, h2, hhash]
        rfl
      · refine ⟨(bs0, ps0), ?_⟩
        simp [collectCmdIdxs, hv0, hr0, bind, Except.bind, h1, h2, hhash]
        rfl

theorem collectSpec_lift (c0 : PyVal) (rest : List PyVal) (i : Nat) (ps0 : List Nat)
    (hmem0 : ∀ x ∈ ps0, i + 1 ≤ x ∧ x - (i + 1) < rest.length ∧
      ∃ c rest2, rest.drop (x - (i + 1)) = c :: rest2 ∧
        ∃ n ∈ setGamePlayerIdxs, pySubscript c (.int 0) = .ok (.int (n : Int))) :
    ∀ x ∈ ps0, i ≤ x ∧ x - i < (c0 :: rest).length ∧
      ∃ c rest2, (c0 :: rest).drop (x - i) = c :: rest2 ∧
        ∃ n ∈ setGamePlayerIdxs, pySubscript c (.int 0) = .ok (.int (n : Int)) := by
  intro x hx
  obtain ⟨hge, hlt, c, rest2, hdrop, hn⟩ := hmem0 x hx
  have hxi : x - i = (x - (i + 1)) + 1 := by omega
  refine ⟨by omega, by simp; omega, c, rest2, ?_, hn⟩
  rw [hxi, List.drop_succ_cons, hdrop]

theorem collectCmdIdxs_player_spec :
    ∀ (elems : List PyVal) (i : Nat) (bs ps : List Nat),
    collectCmdIdxs i elems = .ok (bs, ps) →
    ps.Pairwise (· < ·) ∧
    ∀ x ∈ ps, i ≤ x ∧ x - i < elems.length ∧
      ∃ c rest2, elems.drop (x - i) = c :: rest2 ∧
        ∃ n ∈ setGamePlayerIdxs, pySubscript c (.int 0) = .ok (.int (n : Int)) := by
  intro elems
  induction elems with
  | nil =>
    intro i bs ps h
    have h2 : (Except.ok (([], []) : List Nat × List Nat) :
        Except PyErr (List Nat × List Nat)) = .ok (bs, ps) := h
    cases h2
    exact ⟨List.Pairwise.nil, fun x hx => absurd hx (List.not_mem_nil x)⟩
  | cons c0 rest ih =>
    intro i bs ps h
    cases hsub : pySubscript c0 (.int 0) with
    | error e =>
      simp only [collectCmdIdxs, hsub, bind, Except.bind] at h
      simp at h
    | ok v0 =>
      simp only [collectCmdIdxs, hsub, bind, Except.bind] at h
      by_cases h1 : pyEq v0 (.int (setGameBoardCellVal : Int)) = true
      · rw [if_pos h1] at h
        cases hcol : collectCmdIdxs (i + 1) rest with
        | error e => rw [hcol] at h; simp at h
        | ok r0 =>
          rw [hcol] at h
          obtain ⟨bs0, ps0⟩ := r0
          obtain ⟨hpw0, hmem0⟩ := ih (i + 1) bs0 ps0 hcol
          replace h : (Except.ok ((i :: bs0, ps0) : List Nat × List Nat) :
              Except PyErr (List Nat × List Nat)) = .ok (bs, ps) := h
          cases h
          exact ⟨hpw0, collectSpec_lift c0 rest i _ hmem0⟩
      · rw [if_neg h1] at h
        by_cases hh : (!pyHashable v0) = true
        · rw [if_pos hh] at h
          simp at h
        · rw [if_neg hh] at h
          by_cases h2 : (setGamePlayerIdxs.any fun n => pyEq v0 (.int (n : Int))) = true
          · rw [if_pos h2] at h
            cases hcol : collectCmdIdxs (i + 1) rest with
            | error e => rw [hcol] at h; simp at h
            | ok r0 =>
              rw [hcol] at h
              obtain ⟨bs0, ps0⟩ := r0
              obtain ⟨hpw0, hmem0⟩ := ih (i + 1) bs0 ps0 hcol
              replace h : (Except.ok ((bs0, i :: ps0) : List Nat × List Nat) :
                  Except PyErr (List Nat × List Nat)) = .ok (bs, ps) := h
              cases h
              obtain ⟨n, hn, hpy⟩ := List.any_eq_true.mp h2
              have hv0 : v0 = .int (n : Int) := (pyEq_int_iff v0 _).mp hpy
              refine ⟨List.Pairwise.cons (fun y hy => by
                  have := (hmem0 y hy).1; omega) hpw0, ?_⟩
              intro x hx
              rcases List.mem_cons.mp hx with hx2 | hx2
              · subst hx2
                exact ⟨le_refl _, by simp, c0, rest, by simp, n, hn, hv0 ▸ hsub⟩
              · exact collectSpec_lift c0 rest i _ hmem0 x hx2
          · rw [if_neg h2] at h
            cases hcol : collectCmdIdxs (i + 1) rest with
            | error e => rw [hcol] at h; simp at h
            | ok r0 =>
              rw [hcol] at h
              obtain ⟨bs0, ps0⟩ := r0
              obtain ⟨hpw0, hmem0⟩ := ih (i + 1) bs0 ps0 hcol
              replace h : (Except.ok ((bs0, ps0) : List Nat × List Nat) :
                  Except PyErr (List Nat × List Nat)) = .ok (bs, ps) := h
              cases h
              exact ⟨hpw0, collectSpec_lift c0 rest i _ hmem0⟩

theorem sorted_head_le_getLastD :
    ∀ (t : List Nat) (a : Nat), (a :: t).Pairwise (· < ·) →
    a ≤ (a :: t).getLastD 0 := by
  intro t
  induction t with
  | nil => intro a _; exact le_refl a
  | cons b t2 ih =>
    intro a hpw
    have hab : a < b := (List.pairwise_cons.mp hpw).1 b (List.mem_cons_self _ _)
    have hb := ih b (List.pairwise_cons.mp hpw).2
    calc a ≤ b := le_of_lt hab
      _ ≤ (b :: t2).getLastD 0 := hb
      _ = (a :: b :: t2).getLastD 0 := by
          rw [List.getLastD_eq_getLast?, List.getLastD_eq_getLast?,
            List.getLast?_cons_cons]

theorem getLastD_mem : ∀ (t : List Nat) (a : Nat), (a :: t).getLastD 0 ∈ a :: t := by
  intro t
  induction t with
  | nil => intro a; simp [List.getLastD]
  | cons b t2 ih =>
    intro a
    rw [show (a :: b :: t2).getLastD 0 = (b :: t2).getLastD 0 from by
      rw [List.getLastD_eq_getLast?, List.getLastD_eq_getLast?, List.getLast?_cons_cons]]
    exact List.mem_cons_of_mem a (ih b)

theorem reorderCommands_list_eq (elems : List PyVal) :
    reorderCommands (.list elems) =
      match collectCmdIdxs 0 elems with
      | .error e => .error e
      | .ok r =>
        if r.1 ≠ [] ∧ r.2 ≠ [] ∧ r.1.headD 0 < r.2.headD 0 then
          .ok (.list ((elems.drop (r.2.headD 0)).take (r.2.getLastD 0 + 1 - r.2.headD 0) ++
            elems.take (r.2.headD 0) ++ elems.drop (r.2.getLastD 0 + 1)))
        else .ok (.list elems) := by
  unfold reorderCommands
  cases hcol : collectCmdIdxs 0 elems with
  | error e => simp [pyIter, bind, Except.bind, hcol]
  | ok r =>
    obtain ⟨bIdxs, pIdxs⟩ := r
    simp only [pyIter, bind, Except.bind, hcol]

/-- C3 as amended: when the index-collection loop completes without
raising (which requires every command head reached by the player-set
membership test to be hashable) and a `SetGameBoardCell` command precedes
the first `SetGamePlayer*` command, the classifier moves the single
contiguous span running from the first to the last `SetGamePlayer*`
command - including any interleaved non-player commands - to the front of
the batch (not every maximal player-command run); the result is a
permutation of the batch, and re-running the classifier on the reordered
batch returns it unchanged, because its first command is then a
`SetGamePlayer*` command, making the guard
`set_game_board_cell_indexes[0] < set_game_player_indexes[0]` false. -/
theorem c3_span_reorder (elems : List PyVal) (bs ps : List Nat)
    (h : collectCmdIdxs 0 elems = .ok (bs, ps))
    (hbs : bs ≠ []) (hps : ps ≠ []) (hlt : bs.headD 0 < ps.headD 0) :
    reorderCommands (.list elems) =
      .ok (.list ((elems.drop (ps.headD 0)).take (ps.getLastD 0 + 1 - ps.headD 0) ++
        elems.take (ps.headD 0) ++ elems.drop (ps.getLastD 0 + 1))) ∧
    ((elems.drop (ps.headD 0)).take (ps.getLastD 0 + 1 - ps.headD 0) ++
        elems.take (ps.headD 0) ++ elems.drop (ps.getLastD 0 + 1)).Perm elems ∧
    reorderCommands (.list ((elems.drop (ps.headD 0)).take (ps.getLastD 0 + 1 - ps.headD 0) ++
        elems.take (ps.headD 0) ++ elems.drop (ps.getLastD 0 + 1))) =
      .ok (.list ((elems.drop (ps.headD 0)).take (ps.getLastD 0 + 1 - ps.headD 0) ++
        elems.take (ps.headD 0) ++ elems.drop (ps.getLastD 0 + 1))) := by
  obtain ⟨p0, ps2, rfl⟩ := List.exists_cons_of_ne_nil hps
  simp only [List.headD_cons]
  obtain ⟨hpw, hmem⟩ := collectCmdIdxs_player_spec elems 0 bs (p0 :: ps2) h
  have hp0mx : p0 ≤ (p0 :: ps2).getLastD 0 := sorted_head_le_getLastD ps2 p0 hpw
  have hmxmem : (p0 :: ps2).getLastD 0 ∈ p0 :: ps2 := getLastD_mem ps2 p0
  have hmxlen : (p0 :: ps2).getLastD 0 < elems.length := by
    have := (hmem _ hmxmem).2.1; simpa using this
  obtain ⟨-, hp0len0, c, rest2, hdrop0, n, hn, hsubc⟩ := hmem p0 (List.mem_cons_self _ _)
  have hdrop : elems.drop p0 = c :: rest2 := by simpa using hdrop0
  have hspan : (elems.drop p0).take ((p0 :: ps2).getLastD 0 + 1 - p0) =
      c :: rest2.take ((p0 :: ps2).getLastD 0 - p0) := by
    rw [hdrop, show (p0 :: ps2).getLastD 0 + 1 - p0 =
      ((p0 :: ps2).getLastD 0 - p0) + 1 from by omega]
    rfl
  refine ⟨?_, ?_, ?_⟩
  · rw [reorderCommands_list_eq, h]
    exact if_pos ⟨hbs, by simp, hlt⟩
  · have hsplit : elems = elems.take p0 ++
        ((elems.drop p0).take ((p0 :: ps2).getLastD 0 + 1 - p0) ++
          elems.drop ((p0 :: ps2).getLastD 0 + 1)) := by
      conv_lhs => rw [← List.take_append_drop p0 elems]
      congr 1
      conv_lhs => rw [← List.take_append_drop ((p0 :: ps2).getLastD 0 + 1 - p0)
        (elems.drop p0)]
      congr 1
      rw [List.drop_drop]
      congr 1
      omega
    refine (List.perm_append_comm.append_right
      (elems.drop ((p0 :: ps2).getLastD 0 + 1))).trans ?_
    rw [List.append_assoc, ← hsplit]
  · have hval4 : setGameBoardCellVal = 4 := by decide
    have hsp : setGamePlayerIdxs = [8, 9, 10, 11, 24, 25] := by decide
    have hplayer : (setGamePlayerIdxs.any fun k =>
        pyEq (.int (n : Int)) (.int (k : Int))) = true :=
      List.any_eq_true.mpr ⟨n, hn, by simp [pyEq]⟩
    have hnotboard : pyEq (.int (n : Int)) (.int (setGameBoardCellVal : Int)) = false := by
      rw [hval4]
      rw [hsp] at hn
      fin_cases hn <;> decide
    have hsubAll := collectCmdIdxs_subOk elems 0 (bs, p0 :: ps2) h
    have htailOk : ∀ c2 ∈ (rest2.take ((p0 :: ps2).getLastD 0 - p0) ++ elems.take p0 ++
        elems.drop ((p0 :: ps2).getLastD 0 + 1)),
        ∃ v, pySubscript c2 (.int 0) = .ok v ∧ pyHashable v = true := by
      intro c2 hc2
      rcases List.mem_append.mp hc2 with hc3 | hc3
      · rcases List.mem_append.mp hc3 with hc4 | hc4
        · have hm1 : c2 ∈ rest2 := List.mem_of_mem_take hc4
          have hm2 : c2 ∈ elems.drop p0 := by
            rw [hdrop]; exact List.mem_cons_of_mem _ hm1
          exact hsubAll c2 (List.mem_of_mem_drop hm2)
        · exact hsubAll c2 (List.mem_of_mem_take hc4)
      · exact hsubAll c2 (List.mem_of_mem_drop hc3)
    obtain ⟨⟨bs2, ps2x⟩, hcol2⟩ := collectCmdIdxs_ok_of_subOk _ htailOk 1
    have hcol0 : collectCmdIdxs 0 (c :: (rest2.take ((p0 :: ps2).getLastD 0 - p0) ++
        elems.take p0 ++ elems.drop ((p0 :: ps2).getLastD 0 + 1))) = .ok (bs2, 0 :: ps2x) := by
      simp only [collectCmdIdxs, hsubc, hcol2, bind, Except.bind, hnotboard, hplayer]
      simp [pyHashable]
      rfl
    rw [hspan]
    show reorderCommands (.list (c :: (rest2.take ((p0 :: ps2).getLastD 0 - p0) ++
        elems.take p0 ++ elems.drop ((p0 :: ps2).getLastD 0 + 1)))) =
      .ok (.list (c :: (rest2.take ((p0 :: ps2).getLastD 0 - p0) ++
        elems.take p0 ++ elems.drop ((p0 :: ps2).getLastD 0 + 1))))
    rw [reorderCommands_list_eq, hcol0]
    exact if_neg (fun hcond => Nat.not_lt_zero _ hcond.2.2)

/-- C3 counterexample: the claim as stated is false.  In the batch
`[SetGameBoardCell, SetGamePlayerJoin, SetGameBoardCell, SetGamePlayerRejoin]`
(codes 4, 8, 4, 9) the two maximal player-command runs are the singletons
at positions 1 and 3; the claim predicts both moved to the front
(`[8, 9, 4, 4]` order), but the code moves the single span from position 1
to position 3 - player and board commands interleaved - producing
`[8, 4, 9, 4]` order, in which a board command still separates the two
player commands.  Additionally, in `[SetGamePlayerJoin, SetGameBoardCell,
SetGamePlayerRejoin]` a board command precedes a player command, yet the
code leaves the batch unchanged because the FIRST board index does not
precede the FIRST player index.  Finally, in
`[SetGameBoardCell, [[], 1], SetGamePlayerJoin]` a board command precedes
a player command, yet the classifier produces no output batch at all: the
middle command head is a decoded JSON array, which the set-membership
test of source line 217 hashes, raising an uncaught `TypeError`. -/
theorem c3_counterexample :
    reorderCommands (.list [.list [.int 4, .int 0], .list [.int 8, .int 1],
        .list [.int 4, .int 2], .list [.int 9, .int 3]]) =
      .ok (.list [.list [.int 8, .int 1], .list [.int 4, .int 2],
        .list [.int 9, .int 3], .list [.int 4, .int 0]]) ∧
    (PyVal.list [.list [.int 8, .int 1], .list [.int 4, .int 2],
        .list [.int 9, .int 3], .list [.int 4, .int 0]]) ≠
      (PyVal.list [.list [.int 8, .int 1], .list [.int 9, .int 3],
        .list [.int 4, .int 0], .list [.int 4, .int 2]]) ∧
    reorderCommands (.list [.list [.int 8, .int 1], .list [.int 4, .int 0],
        .list [.int 9, .int 3]]) =
      .ok (.list [.list [.int 8, .int 1], .list [.int 4, .int 0],
        .list [.int 9, .int 3]]) ∧
    reorderCommands (.list [.list [.int 4, .int 0], .list [.list [], .int 1],
        .list [.int 8, .int 2]]) = .error .typeError := by
  refine ⟨by decide, by decide, by decide, by decide⟩

/-- C3 witness: the amended span-move theorem applied to the
counterexample batch. -/
theorem c3_witness :
    reorderCommands (.list [.list [.int 4, .int 0], .list [.int 8, .int 1],
        .list [.int 4, .int 2], .list [.int 9, .int 3]]) =
      .ok (.list [.list [.int 8, .int 1], .list [.int 4, .int 2],
        .list [.int 9, .int 3], .list [.int 4, .int 0]]) ∧
    ([PyVal.list [.int 8, .int 1], PyVal.list [.int 4, .int 2],
      PyVal.list [.int 9, .int 3], PyVal.list [.int 4, .int 0]]).Perm
      [PyVal.list [.int 4, .int 0], PyVal.list [.int 8, .int 1],
       PyVal.list [.int 4, .int 2], PyVal.list [.int 9, .int 3]] ∧
    reorderCommands (.list [.list [.int 8, .int 1], .list [.int 4, .int 2],
        .list [.int 9, .int 3], .list [.int 4, .int 0]]) =
      .ok (.list [.list [.int 8, .int 1], .list [.int 4, .int 2],
        .list [.int 9, .int 3], .list [.int 4, .int 0]]) :=
  c3_span_reorder
    [.list [.int 4, .int 0], .list [.int 8, .int 1],
     .list [.int 4, .int 2], .list [.int 9, .int 3]]
    [0, 2] [1, 3] (by decide) (by decide) (by decide) (by decide)

theorem exceptBind_ok {α β : Type} {x : Except PyErr α} {f : α → Except PyErr β} {b : β}
    (h : (x >>= f) = .ok b) : ∃ a, x = .ok a ∧ f a = .ok b := by
  cases x with
  | error e => simp [bind, Except.bind] at h
  | ok a => exact ⟨a, rfl, h⟩

theorem exceptPure_ok {α : Type} {a b : α} (h : (pure a : Except PyErr α) = .ok b) :
    a = b := by
  have h2 : (Except.ok a : Except PyErr α) = .ok b := h
  cases h2
  rfl

theorem preservesIdMaps_trans {a b c : PState} (h1 : preservesIdMaps a b)
    (h2 : preservesIdMaps b c) : preservesIdMaps a c :=
  ⟨h2.1.trans h1.1, h2.2.trans h1.2⟩


theorem idOk_bind {α : Type} {x : Except PyErr α} {f : α → Except PyErr PState}
    {s : PState} (hf : ∀ a, IdOk s (f a)) : IdOk s (x >>= f) := by
  intro s2 h
  obtain ⟨a, -, h⟩ := exceptBind_ok h
  exact hf a s2 h

theorem idOk_final {s : PState} (r : PState)
    (hr : r.clientIdToUsername = s.clientIdToUsername)
    (hu : r.usernameToClientId = s.usernameToClientId) : IdOk s (pure r) := by
  intro s2 h
  cases exceptPure_ok h
  exact ⟨hr, hu⟩

theorem idOk_error {s : PState} (e : PyErr) : IdOk s (.error e) :=
  fun s2 h => absurd h (by simp)

theorem addClientIdToGame_idOk (s : PState) (gameId clientId : PyVal) :
    IdOk s (addClientIdToGame s gameId clientId) := by
  unfold addClientIdToGame
  repeat' (first | (apply idOk_bind; intro a) | split | simp only [])
  all_goals first | exact idOk_final _ rfl rfl | exact idOk_error _

theorem removeClientIdFromGame_idOk (s : PState) (clientId : PyVal) :
    IdOk s (removeClientIdFromGame s clientId) := by
  unfold removeClientIdFromGame
  repeat' (first | (apply idOk_bind; intro a) | split | simp only [])
  all_goals first | exact idOk_final _ rfl rfl | exact idOk_error _

theorem removePlayerIdFromGame_idOk (s : PState) (gameId playerId : PyVal) :
    IdOk s (removePlayerIdFromGame s gameId playerId) := by
  unfold removePlayerIdFromGame
  repeat' (first | (apply idOk_bind; intro a) | split | simp only [])
  all_goals first | exact idOk_final _ rfl rfl | exact idOk_error _

theorem handleSetGameBoardCell_idOk (s : PState) (ids : List Nat) (c : PyVal) :
    IdOk s (handleSetGameBoardCell s ids c) := by
  unfold handleSetGameBoardCell
  repeat' (first | (apply idOk_bind; intro a) | split | simp only [])
  all_goals first | exact idOk_final _ rfl rfl | exact idOk_error _

theorem handleSetScoreSheetCell_idOk (s : PState) (ids : List Nat) (c : PyVal) :
    IdOk s (handleSetScoreSheetCell s ids c) := by
  unfold handleSetScoreSheetCell
  repeat' (first | (apply idOk_bind; intro a) | split | simp only [])
  all_goals first | exact idOk_final _ rfl rfl | exact idOk_error _

theorem handleSetScoreSheet_idOk (s : PState) (ids : List Nat) (c : PyVal) :
    IdOk s (handleSetScoreSheet s ids c) := by
  unfold handleSetScoreSheet
  repeat' (first | (apply idOk_bind; intro a) | split | simp only [])
  all_goals first | exact idOk_final _ rfl rfl | exact idOk_error _

theorem handleGamePlayerJoin_idOk (s : PState) (ids : List Nat) (c : PyVal) :
    IdOk s (handleGamePlayerJoin s ids c) := by
  unfold handleGamePlayerJoin
  repeat' (first | (apply idOk_bind; intro a) | split | simp only [])
  all_goals
    first
    | exact idOk_final _ rfl rfl
    | exact idOk_error _
    | exact addClientIdToGame_idOk _ _ _

theorem handleGamePlayerLeave_idOk (s : PState) (ids : List Nat) (c : PyVal) :
    IdOk s (handleGamePlayerLeave s ids c) := by
  unfold handleGamePlayerLeave
  repeat' (first | (apply idOk_bind; intro a) | split | simp only [])
  all_goals
    first
    | exact idOk_final _ rfl rfl
    | exact idOk_error _
    | exact removeClientIdFromGame_idOk _ _

theorem handleGameWatcher_idOk (s : PState) (ids : List Nat) (c : PyVal) :
    IdOk s (handleGameWatcher s ids c) := by
  unfold handleGameWatcher
  repeat' (first | (apply idOk_bind; intro a) | split | simp only [])
  all_goals
    first
    | exact idOk_final _ rfl rfl
    | exact idOk_error _
    | exact addClientIdToGame_idOk _ _ _

theorem handleReturnWatcher_idOk (s : PState) (ids : List Nat) (c : PyVal) :
    IdOk s (handleReturnWatcher s ids c) := by
  unfold handleReturnWatcher
  repeat' (first | (apply idOk_bind; intro a) | split | simp only [])
  all_goals
    first
    | exact idOk_final _ rfl rfl
    | exact idOk_error _
    | exact removeClientIdFromGame_idOk _ _

theorem handleSetGamePlayerClientId_idOk (s : PState) (ids : List Nat) (c : PyVal) :
    IdOk s (handleSetGamePlayerClientId s ids c) := by
  unfold handleSetGamePlayerClientId
  repeat' (first | (apply idOk_bind; intro a) | split | simp only [])
  all_goals
    first
    | exact idOk_final _ rfl rfl
    | exact idOk_error _
    | exact addClientIdToGame_idOk _ _ _
    | exact removePlayerIdFromGame_idOk _ _ _

theorem addGameHistoryMessageOne_idOk (s : PState) (cid : Nat) (c : PyVal) :
    IdOk s (addGameHistoryMessageOne s cid c) := by
  unfold addGameHistoryMessageOne
  repeat' (first | (apply idOk_bind; intro a) | split | simp only [])
  all_goals first | exact idOk_final _ rfl rfl | exact idOk_error _

theorem addGameHistoryMessagesOne_idOk (s : PState) (cid : Nat) (c : PyVal) :
    IdOk s (addGameHistoryMessagesOne s cid c) := by
  unfold addGameHistoryMessagesOne
  repeat' (first | (apply idOk_bind; intro a) | split | simp only [])
  all_goals first | exact idOk_final _ rfl rfl | exact idOk_error _

theorem handleSetTile_idOk (s : PState) (ids : List Nat) (c : PyVal) :
    IdOk s (handleSetTile s ids c) := by
  unfold handleSetTile
  repeat' (first | (apply idOk_bind; intro a) | split | simp only [])
  all_goals first | exact idOk_final _ rfl rfl | exact idOk_error _

theorem handleRemoveTile_idOk (s : PState) (ids : List Nat) (c : PyVal) :
    IdOk s (handleRemoveTile s ids c) := by
  unfold handleRemoveTile
  repeat' (first | (apply idOk_bind; intro a) | split | simp only [])
  all_goals first | exact idOk_final _ rfl rfl | exact idOk_error _

theorem handleDoGameAction_idOk (s : PState) (cid : Nat) (cmd : PyVal) :
    IdOk s (handleDoGameAction s cid cmd) := by
  unfold handleDoGameAction
  repeat' (first | (apply idOk_bind; intro a) | split | simp only [])
  all_goals first | exact idOk_final _ rfl rfl | exact idOk_error _

theorem handleGameExpired_idOk (s : PState) (gid : Nat) :
    IdOk s (handleGameExpired s gid) := by
  unfold handleGameExpired
  repeat' (first | (apply idOk_bind; intro a) | split | simp only [])
  all_goals first | exact idOk_final _ rfl rfl | exact idOk_error _

theorem handleLog_idOk (ts : Nat) (s : PState) (entry : PyVal) :
    IdOk s (handleLog ts s entry) := by
  unfold handleLog
  repeat' (first | (apply idOk_bind; intro a) | split | simp only [])
  all_goals first | exact idOk_final _ rfl rfl | exact idOk_error _

theorem foldlM_idOk (f : PState → Nat → Except PyErr PState)
    (hf : ∀ st cid, IdOk st (f st cid)) :
    ∀ (ids : List Nat) (s : PState), IdOk s (ids.foldlM f s) := by
  intro ids
  induction ids with
  | nil => intro s; exact idOk_final s rfl rfl
  | cons cid rest ih =>
    intro s s2 h
    simp only [List.foldlM_cons] at h
    obtain ⟨st2, hst, h⟩ := exceptBind_ok h
    exact preservesIdMaps_trans (hf s cid st2 hst) (ih st2 s2 h)

theorem stepCommandToClientOne_idOk (s : PState) (ids : List Nat) (c : PyVal) :
    IdOk s (stepCommandToClientOne s ids c) := by
  unfold stepCommandToClientOne
  apply idOk_bind; intro v0
  by_cases h0 : (!pyHashable v0) = true
  · rw [if_pos h0]; exact idOk_error _
  · rw [if_neg h0]
    cases v0 <;> try exact idOk_final _ rfl rfl
    case _ n =>
      simp only []
      by_cases h1 : n = (setGameBoardCellVal : Int)
      · rw [if_pos h1]; exact handleSetGameBoardCell_idOk _ _ _
      rw [if_neg h1]
      by_cases h2 : n = (setScoreSheetCellVal : Int)
      · rw [if_pos h2]; exact handleSetScoreSheetCell_idOk _ _ _
      rw [if_neg h2]
      by_cases h3 : n = (setScoreSheetVal : Int)
      · rw [if_pos h3]; exact handleSetScoreSheet_idOk _ _ _
      rw [if_neg h3]
      by_cases h4 : n = (setGamePlayerJoinVal : Int)
      · rw [if_pos h4]; exact handleGamePlayerJoin_idOk _ _ _
      rw [if_neg h4]
      by_cases h5 : n = (setGamePlayerRejoinVal : Int)
      · rw [if_pos h5]; exact handleGamePlayerJoin_idOk _ _ _
      rw [if_neg h5]
      by_cases h6 : n = (setGamePlayerLeaveVal : Int)
      · rw [if_pos h6]; exact handleGamePlayerLeave_idOk _ _ _
      rw [if_neg h6]
      by_cases h7 : n = (setGameWatcherClientIdVal : Int)
      · rw [if_pos h7]; exact handleGameWatcher_idOk _ _ _
      rw [if_neg h7]
      by_cases h8 : n = (returnWatcherToLobbyVal : Int)
      · rw [if_pos h8]; exact handleReturnWatcher_idOk _ _ _
      rw [if_neg h8]
      by_cases h9 : n = (addGameHistoryMessageVal : Int)
      · rw [if_pos h9]
        exact foldlM_idOk _
          (fun st cid => addGameHistoryMessageOne_idOk st cid c) ids s
      rw [if_neg h9]
      by_cases h10 : n = (addGameHistoryMessagesVal : Int)
      · rw [if_pos h10]
        exact foldlM_idOk _
          (fun st cid => addGameHistoryMessagesOne_idOk st cid c) ids s
      rw [if_neg h10]
      by_cases h11 : n = (setTileVal : Int)
      · rw [if_pos h11]; exact handleSetTile_idOk _ _ _
      rw [if_neg h11]
      by_cases h12 : n = (removeTileVal : Int)
      · rw [if_pos h12]; exact handleRemoveTile_idOk _ _ _
      rw [if_neg h12]
      by_cases h13 : n = (setGamePlayerClientIdVal : Int)
      · rw [if_pos h13]; exact handleSetGamePlayerClientId_idOk _ _ _
      rw [if_neg h13]
      exact idOk_final _ rfl rfl

theorem stepCommandToClient_cons (s : PState) (ids : List Nat) (c : PyVal)
    (rest : List PyVal) :
    stepCommandToClient s ids (c :: rest) =
      stepCommandToClient
        (match stepCommandToClientOne s ids c with
         | .ok st2 => st2
         | .error e => s) ids rest := rfl

theorem stepCommandToClient_idMaps (ids : List Nat) :
    ∀ (cs : List PyVal) (s : PState),
    preservesIdMaps s (stepCommandToClient s ids cs) := by
  intro cs
  induction cs with
  | nil => intro s; exact ⟨rfl, rfl⟩
  | cons c rest ih =>
    intro s
    rw [stepCommandToClient_cons]
    cases hone : stepCommandToClientOne s ids c with
    | ok st2 =>
      exact preservesIdMaps_trans (stepCommandToClientOne_idOk s ids c st2 hone)
        (ih st2)
    | error e =>
      exact ih s

theorem stepCommandToServer_idMaps (s : PState) (cid : Nat) (cmd : PyVal) :
    preservesIdMaps s (stepCommandToServer s cid cmd) := by
  have key : IdOk s (do
      let v0 ← pySubscript cmd (.int 0)
      if !pyHashable v0 then .error .typeError
      else if pyEq v0 (.int doGameActionVal) then handleDoGameAction s cid cmd
      else pure s) := by
    apply idOk_bind; intro v0
    by_cases h0 : (!pyHashable v0) = true
    · rw [if_pos h0]; exact idOk_error _
    · rw [if_neg h0]
      by_cases h1 : pyEq v0 (.int doGameActionVal) = true
      · rw [if_pos h1]; exact handleDoGameAction_idOk _ _ _
      · rw [if_neg h1]; exact idOk_final _ rfl rfl
  simp only [stepCommandToServer]
  split
  · rename_i s2 heq
    exact key s2 heq
  · exact ⟨rfl, rfl⟩

/-- C8 as amended: a Disconnect event only queues the removal - the
client-id/username maps are untouched at the point the line is read - and
every later event of the same frame that is not a Connect observes the old
mapping unchanged; but the queued removals are applied by the shared
frame-flush handler, which `_line_type_to_handler` binds to the
`blank_line`, `connection_made` AND `error` line types, so the flush
happens at the first of those three line types, not exclusively at the
next BlankLine. -/
theorem c8_disconnect_delayed_flush (ts : Nat) (s : PState) (e : Event) :
    (∀ cid, e.lt = some .disconnect → e.data = some (.disconnect cid) →
      stepEvent ts s e =
        .ok { s with delayedDisconnects := s.delayedDisconnects ++ [cid] }) ∧
    ((e.lt = some .blankLine ∨ e.lt = some .connectionMade ∨ e.lt = some .error) →
      stepEvent ts s e = flushDelayed s) ∧
    (∀ s2, stepEvent ts s e = .ok s2 →
      e.lt ≠ some .connect → e.lt ≠ some .blankLine →
      e.lt ≠ some .connectionMade → e.lt ≠ some .error →
      s2.clientIdToUsername = s.clientIdToUsername ∧
      s2.usernameToClientId = s.usernameToClientId) := by
  obtain ⟨lt, lineNo, line, data⟩ := e
  refine ⟨?_, ?_, ?_⟩
  · intro cid hlt hdata
    have hlt2 : lt = some .disconnect := hlt
    have hdata2 : data = some (.disconnect cid) := hdata
    subst hlt2
    subst hdata2
    rfl
  · intro hor
    rcases hor with h1 | h1 | h1 <;>
      (have h2 : lt = _ := h1
       subst h2
       first
       | rfl
       | (cases data with
          | none => rfl
          | some d => cases d <;> rfl))
  · intro s2 h hcn hbl hcm herr
    cases lt with
    | none =>
      have h2 : (Except.ok s : Except PyErr PState) = .ok s2 := h
      cases h2
      exact ⟨rfl, rfl⟩
    | some l =>
      cases l with
      | connect => exact absurd rfl hcn
      | blankLine => exact absurd rfl hbl
      | connectionMade => exact absurd rfl hcm
      | error => exact absurd rfl herr
      | time =>
        cases data with
        | none => simp [stepEvent] at h
        | some d =>
          cases d with
          | time t =>
            have h2 : (Except.ok { s with time := some t } :
                Except PyErr PState) = .ok s2 := h
            cases h2
            exact ⟨rfl, rfl⟩
          | commandToClient a b => simp [stepEvent] at h
          | commandToServer a b => simp [stepEvent] at h
          | log a => simp [stepEvent] at h
          | connect a b => simp [stepEvent] at h
          | disconnect a => simp [stepEvent] at h
          | gameExpired a => simp [stepEvent] at h
          | unit => simp [stepEvent] at h
      | disconnect =>
        cases data with
        | none => simp [stepEvent] at h
        | some d =>
          cases d with
          | disconnect cid =>
            have h2 : (Except.ok
                { s with delayedDisconnects := s.delayedDisconnects ++ [cid] } :
                Except PyErr PState) = .ok s2 := h
            cases h2
            exact ⟨rfl, rfl⟩
          | time t => simp [stepEvent] at h
          | commandToClient a b => simp [stepEvent] at h
          | commandToServer a b => simp [stepEvent] at h
          | log a => simp [stepEvent] at h
          | connect a b => simp [stepEvent] at h
          | gameExpired a => simp [stepEvent] at h
          | unit => simp [stepEvent] at h
      | commandToClient =>
        cases data with
        | none => simp [stepEvent] at h
        | some d =>
          cases d with
          | commandToClient ids cmds =>
            have h3 : (do
                let cs ← pyIter cmds
                pure (stepCommandToClient s ids cs) :
                Except PyErr PState) = .ok s2 := h
            obtain ⟨cs, -, h4⟩ := exceptBind_ok h3
            cases exceptPure_ok h4
            exact stepCommandToClient_idMaps ids cs s
          | time t => simp [stepEvent] at h
          | commandToServer a b => simp [stepEvent] at h
          | log a => simp [stepEvent] at h
          | connect a b => simp [stepEvent] at h
          | disconnect a => simp [stepEvent] at h
          | gameExpired a => simp [stepEvent] at h
          | unit => simp [stepEvent] at h
      | commandToServer =>
        cases data with
        | none => simp [stepEvent] at h
        | some d =>
          cases d with
          | commandToServer cid cmd =>
            have h2 : (Except.ok (stepCommandToServer s cid cmd) :
                Except PyErr PState) = .ok s2 := h
            cases h2
            exact stepCommandToServer_idMaps s cid cmd
          | time t => simp [stepEvent] at h
          | commandToClient a b => simp [stepEvent] at h
          | log a => simp [stepEvent] at h
          | connect a b => simp [stepEvent] at h
          | disconnect a => simp [stepEvent] at h
          | gameExpired a => simp [stepEvent] at h
          | unit => simp [stepEvent] at h
      | gameExpired =>
        cases data with
        | none => simp [stepEvent] at h
        | some d =>
          cases d with
          | gameExpired gid => exact handleGameExpired_idOk s gid s2 h
          | time t => simp [stepEvent] at h
          | commandToClient a b => simp [stepEvent] at h
          | commandToServer a b => simp [stepEvent] at h
          | log a => simp [stepEvent] at h
          | connect a b => simp [stepEvent] at h
          | disconnect a => simp [stepEvent] at h
          | unit => simp [stepEvent] at h
      | log =>
        cases data with
        | none => simp [stepEvent] at h
        | some d =>
          cases d with
          | log entry => exact handleLog_idOk ts s entry s2 h
          | time t => simp [stepEvent] at h
          | commandToClient a b => simp [stepEvent] at h
          | commandToServer a b => simp [stepEvent] at h
          | connect a b => simp [stepEvent] at h
          | disconnect a => simp [stepEvent] at h
          | gameExpired a => simp [stepEvent] at h
          | unit => simp [stepEvent] at h

/-- C8 counterexample: the claim says the queued removal is applied
exactly at the next BlankLine event, but a connection-made line flushes it
too: with client 3 mapped and its disconnect queued, the connection-made
event - whose line type is not BlankLine - applies the removal. -/
theorem c8_counterexample :
    stepEvent 0
      { clientIdToUsername := [(3, "alice")]
        usernameToClientId := [("alice", 3)]
        clientIdToGameId := []
        gameIdToGame := []
        delayedDisconnects := [3]
        expiredGames := []
        time := Option.none }
      { lt := some .connectionMade, lineNo := 5, line := "connection_made",
        data := some .unit } =
      .ok { clientIdToUsername := []
            usernameToClientId := []
            clientIdToGameId := []
            gameIdToGame := []
            delayedDisconnects := []
            expiredGames := []
            time := Option.none } ∧
    (some LineTypes.connectionMade : Option LineTypes) ≠ some .blankLine := by
  refine ⟨by decide, by decide⟩

/-- C8 witness: the amended theorem applied to a disconnect event, a
blank-line event and a time event from one concretely mapped state. -/
theorem c8_witness :
    stepEvent 0
      { clientIdToUsername := [(7, "bob")]
        usernameToClientId := [("bob", 7)]
        clientIdToGameId := []
        gameIdToGame := []
        delayedDisconnects := []
        expiredGames := []
        time := Option.none }
      { lt := some .disconnect
        lineNo := 1
        line := "2 disconnect"
        data := some (.disconnect 7) } =
      .ok { clientIdToUsername := [(7, "bob")]
            usernameToClientId := [("bob", 7)]
            clientIdToGameId := []
            gameIdToGame := []
            delayedDisconnects := [7]
            expiredGames := []
            time := Option.none } ∧
    stepEvent 0
      { clientIdToUsername := [(7, "bob")]
        usernameToClientId := [("bob", 7)]
        clientIdToGameId := []
        gameIdToGame := []
        delayedDisconnects := [7]
        expiredGames := []
        time := Option.none }
      { lt := some .blankLine
        lineNo := 2
        line := ""
        data := some .unit } =
      flushDelayed
        { clientIdToUsername := [(7, "bob")]
          usernameToClientId := [("bob", 7)]
          clientIdToGameId := []
          gameIdToGame := []
          delayedDisconnects := [7]
          expiredGames := []
          time := Option.none } ∧
    ({ clientIdToUsername := [(7, "bob")]
       usernameToClientId := [("bob", 7)]
       clientIdToGameId := []
       gameIdToGame := []
       delayedDisconnects := [7]
       expiredGames := []
       time := some "100" } : PState).clientIdToUsername = [(7, "bob")] ∧
    ({ clientIdToUsername := [(7, "bob")]
       usernameToClientId := [("bob", 7)]
       clientIdToGameId := []
       gameIdToGame := []
       delayedDisconnects := [7]
       expiredGames := []
       time := some "100" } : PState).usernameToClientId = [("bob", 7)] := by
  have h3 := (c8_disconnect_delayed_flush 0
    { clientIdToUsername := [(7, "bob")]
      usernameToClientId := [("bob", 7)]
      clientIdToGameId := []
      gameIdToGame := []
      delayedDisconnects := [7]
      expiredGames := []
      time := Option.none }
    { lt := some .time
      lineNo := 3
      line := "100"
      data := some (.time "100") }).2.2
    { clientIdToUsername := [(7, "bob")]
      usernameToClientId := [("bob", 7)]
      clientIdToGameId := []
      gameIdToGame := []
      delayedDisconnects := [7]
      expiredGames := []
      time := some "100" }
    rfl (by decide) (by decide) (by decide) (by decide)
  exact ⟨(c8_disconnect_delayed_flush 0 _ _).1 7 rfl rfl,
    (c8_disconnect_delayed_flush 0 _ _).2.1 (Or.inl rfl), h3.1, h3.2⟩

/-- C4 as amended: the per-command guards hold - a command-to-client event
whose decoded batch is iterable is dispatched without any exception
reaching the caller (each command of the batch runs inside its own
try/except), and a command-to-server event never raises at all (its whole
dispatch is inside one try/except).  The claim's stronger "never raises
to its caller" part is false: handlers outside these guards
(`_handle_game_expired`, `_handle_log`, the delayed-disconnect flush) can
raise and abort the remaining trace, as the counterexample shows. -/
theorem c4_command_dispatch_guarded (ts : Nat) (s : PState) (e : Event) :
    (∀ ids cmds cs, e.lt = some .commandToClient →
      e.data = some (.commandToClient ids cmds) →
      pyIter cmds = .ok cs →
      stepEvent ts s e = .ok (stepCommandToClient s ids cs)) ∧
    (∀ cid cmd, e.lt = some .commandToServer →
      e.data = some (.commandToServer cid cmd) →
      stepEvent ts s e = .ok (stepCommandToServer s cid cmd)) := by
  obtain ⟨lt, lineNo, line, data⟩ := e
  constructor
  · intro ids cmds cs hlt hdata hiter
    have hlt2 : lt = some .commandToClient := hlt
    have hdata2 : data = some (.commandToClient ids cmds) := hdata
    subst hlt2
    subst hdata2
    simp only [stepEvent, hiter, bind, Except.bind]
    rfl
  · intro cid cmd hlt hdata
    have hlt2 : lt = some .commandToServer := hlt
    have hdata2 : data = some (.commandToServer cid cmd) := hdata
    subst hlt2
    subst hdata2
    rfl

/-- C4 counterexample: a `game #N expired` line for a game id that was
never opened raises an uncaught `KeyError` out of
`LogProcessor._handle_game_expired` (source line 538 indexes
`self._game_id_to_game` directly), aborting the whole reconstruction -
including every later line of the file - and yielding no games. -/
theorem c4_counterexample :
    processorGo 9999999999 (fun _ => Option.none) ["game #7 expired"] =
      ([], some .keyError) ∧
    processorGo 9999999999 (fun _ => Option.none)
      ["game #7 expired", "", "1 disconnect"] = ([], some .keyError) := by
  refine ⟨by decide, by decide⟩

/-- C4 witness: guarded dispatch of one client batch and one server
command from the initial state. -/
theorem c4_witness :
    stepEvent 0 initPState
      { lt := some .commandToClient
        lineNo := 1
        line := "5 <- []"
        data := some (.commandToClient [5] (.list [])) } =
      .ok (stepCommandToClient initPState [5] []) ∧
    stepEvent 0 initPState
      { lt := some .commandToServer
        lineNo := 2
        line := "5 -> [5]"
        data := some (.commandToServer 5 (.list [.int 5])) } =
      .ok (stepCommandToServer initPState 5 (.list [.int 5])) := by
  exact ⟨(c4_command_dispatch_guarded 0 initPState _).1 [5] (.list []) [] rfl rfl rfl,
    (c4_command_dispatch_guarded 0 initPState _).2 5 (.list [.int 5]) rfl rfl⟩

/-- C6 as amended: a line classified as the stop sentinel halts
consumption at once - no event for that line, none for any later line,
whatever the rest of the file holds; a `connection_made` line is the stop
sentinel exactly when a connection-made was already counted (the first one
yields an ordinary connection-made event); and any line classified
without an exception as a match or a no-match consumes exactly itself,
the rest of the file continuing normally - so the only OTHER way
consumption can end mid-file is an exception escaping a line handler
(claim C4's counterexample). -/
theorem c6_second_connection_made_stops (tr : CommandsToClientTranslator)
    (decode : String → Option PyVal) (cm n : Nat) (last : Option LineTypes)
    (l : String) (ls : List String) :
    (∀ cm2, classifyLine tr decode cm l = .ok (cm2, .stop) →
      parserRun tr decode cm n last (l :: ls) =
        ([], Option.none, some LineTypes.connectionMade, n + 1)) ∧
    (classifyLine tr decode cm "connection_made" =
      .ok (cm + 1,
        if cm + 1 = 1 then LineOut.ev .connectionMade .unit else LineOut.stop)) ∧
    (∀ cm2 lt d, classifyLine tr decode cm l = .ok (cm2, .ev lt d) →
      parserRun tr decode cm n last (l :: ls) =
        ((⟨some lt, n, l, some d⟩ : Event) ::
            (parserRun tr decode cm2 (n + 1) (some lt) ls).1,
          (parserRun tr decode cm2 (n + 1) (some lt) ls).2)) ∧
    (∀ cm2, classifyLine tr decode cm l = .ok (cm2, .noMatch) →
      parserRun tr decode cm n last (l :: ls) =
        ((⟨Option.none, n, l, Option.none⟩ : Event) ::
            (parserRun tr decode cm2 (n + 1) Option.none ls).1,
          (parserRun tr decode cm2 (n + 1) Option.none ls).2)) := by
  refine ⟨?_, ?_, ?_, ?_⟩
  · intro cm2 h
    simp only [parserRun, h]
  · cases cm with
    | zero => with_unfolding_all rfl
    | succ k => with_unfolding_all rfl
  · intro cm2 lt d h
    simp only [parserRun, h]
  · intro cm2 h
    simp only [parserRun, h]

/-- C6 counterexample: the second connection-made sentinel is not the only
mid-file early termination - a command-to-client line whose decoded
payload is a bare integer raises a `TypeError` in the classifier (the
translator iterates the batch), which ends line consumption with the
remaining lines unread, although no connection-made sentinel occurred. -/
theorem c6_counterexample :
    logParserGo 9999999999 (fun str => if str = "3" then some (.int 3) else Option.none)
      ["5 <- 3", "", "connection_made"] = ([], some .typeError) ∧
    ("5 <- 3" : String) ≠ "connection_made" := by
  refine ⟨by decide, by decide⟩

/-- C6 witness: the stop case applied to a second connection-made line
followed by an unread disconnect line, and the normal-consumption case
applied to a blank line. -/
theorem c6_witness :
    parserRun (mkTranslator (getTranslations 9999999999)) (fun _ => Option.none)
      1 5 (some LineTypes.connectionMade) ["connection_made", "1 disconnect"] =
      ([], Option.none, some LineTypes.connectionMade, 6) ∧
    parserRun (mkTranslator (getTranslations 9999999999)) (fun _ => Option.none)
      0 1 Option.none [""] =
      ((⟨some LineTypes.blankLine, 1, "", some .unit⟩ : Event) ::
          (parserRun (mkTranslator (getTranslations 9999999999))
            (fun _ => Option.none) 0 2 (some LineTypes.blankLine) []).1,
        (parserRun (mkTranslator (getTranslations 9999999999))
          (fun _ => Option.none) 0 2 (some LineTypes.blankLine) []).2) := by
  refine ⟨(c6_second_connection_made_stops
      (mkTranslator (getTranslations 9999999999)) (fun _ => Option.none)
      1 5 (some LineTypes.connectionMade) "connection_made" ["1 disconnect"]).1
      2 (by decide),
    (c6_second_connection_made_stops
      (mkTranslator (getTranslations 9999999999)) (fun _ => Option.none)
      0 1 Option.none "" []).2.2.1 0 .blankLine .unit (by decide)⟩
